import Mathlib

/-!
Verification development for a PDF reading library (a fork of rsc.io/pdf).

The library is shallowly embedded: each Lean definition below translates one
function of the Go source.  Machine integers are modelled as `Nat`/`Int` with
explicit `% 2^w` where the Go code converts or overflows; Go's `float64` is
modelled as `ℚ` (no claim under consideration exercises floating-point
rounding); fallible Go code (both returned `error`s and run-time panics) is
modelled with `Except`/`Option`, with a distinct constructor for panics.
File I/O (reading and parsing an object at a byte offset) is abstracted as an
oracle field of the reader state, and Go slice capacity growth is abstracted
as zero padding; both abstractions are noted at their use sites.
-/

namespace PdfVerify

/-- `pdfobjptr` (id `uint32`, gen `uint16`): an indirect object reference.
The fields hold the numeric values of the Go machine words. -/
structure ObjPtr where
  id : ℕ
  gen : ℕ
  deriving DecidableEq, Repr

/-- The zero `pdfobjptr{}`. -/
def ObjPtr.zero : ObjPtr := ⟨0, 0⟩

instance : Inhabited ObjPtr := ⟨ObjPtr.zero⟩

/-- Go's `uint32(x)` conversion from a signed integer: two's-complement
truncation, i.e. the representative of `x` modulo `2^32`. -/
def uint32 (x : ℤ) : ℕ := (x % (2 ^ 32 : ℤ)).toNat

/-- Go's `uint16(x)` conversion from a signed integer. -/
def uint16 (x : ℤ) : ℕ := (x % (2 ^ 16 : ℤ)).toNat

/-- Go's `byte(x)` conversion. -/
def byteOf (x : ℕ) : ℕ := x % 256

/-- `pdfobject`: the tagged union of raw PDF object kinds stored in the
dynamic `interface{}`.  Go's `nil` is `.null`; `pdfdict` (a Go map) is an
association list looked up by key; strings are byte lists; `float64` data is
modelled as `ℚ`. -/
inductive PdfObj where
  | null : PdfObj
  | bool (b : Bool) : PdfObj
  | int (n : ℤ) : PdfObj
  | real (q : ℚ) : PdfObj
  | str (s : List ℕ) : PdfObj
  | name (s : String) : PdfObj
  | dict (d : List (String × PdfObj)) : PdfObj
  | array (a : List PdfObj) : PdfObj
  | stream (hdr : List (String × PdfObj)) (sptr : ObjPtr) (off : ℤ) : PdfObj
  | ref (p : ObjPtr) : PdfObj
  | objdef (p : ObjPtr) (o : PdfObj) : PdfObj

instance : Inhabited PdfObj := ⟨PdfObj.null⟩

/-- Lookup in a `pdfdict` (Go map access `d[k]`, first binding wins; a missing
key yields Go `nil`, i.e. `.null`). -/
def dictGet (d : List (String × PdfObj)) (k : String) : PdfObj :=
  match d.find? (fun p => p.1 == k) with
  | some p => p.2
  | none => PdfObj.null

/-- One `xref` table entry. -/
structure Xref where
  ptr : ObjPtr
  inStream : Bool
  stream : ObjPtr
  offset : ℤ
  deriving DecidableEq, Repr

/-- The zero `xref{}` entry. -/
def Xref.empty : Xref := ⟨ObjPtr.zero, false, ObjPtr.zero, 0⟩

instance : Inhabited Xref := ⟨Xref.empty⟩

/-- A lexer token, restricted to the variants the xref-building code
inspects: integers and keywords (any other token shape makes both xref
readers fail their type assertions, which `.other` models). -/
inductive Tok where
  | int (n : ℤ) : Tok
  | kw (s : String) : Tok
  | other : Tok
  deriving DecidableEq, Repr

/-- Errors of the xref-building code.  `.goPanic` stands for a Go run-time
panic (out-of-range index, read failure surfacing through `errorf`, or
reading past the end of input, where `readToken`'s reload panics). -/
inductive XErr where
  | malformedTable : XErr
  | invalidIndex : XErr
  | missingW : XErr
  | invalidW : XErr
  | malformedIndexPair : XErr
  | readFailed : XErr
  | goPanic : XErr
  deriving DecidableEq, Repr

/-- Grow `table` with zero entries so that index `n - 1` exists (no-op when
it already does).  This models the Go idiom
`for cap(table) <= x { table = append(table[:cap(table)], xref{}) }`
followed (in the table path) by `table = table[:x+1]`: appended cells are
zero values.  Capacity bookkeeping itself is memory layout and is abstracted;
the claims under study never grow the table. -/
def padTo (table : List Xref) (n : ℕ) : List Xref :=
  table ++ List.replicate (n - table.length) Xref.empty

/-- One entry of the inner loop of `readXrefTableData`
(src/unnamed/part_000:403-419): the entry `off gen alloc` applied at object
id `x`.  An `alloc` keyword other than `f`/`n` is the "malformed xref table"
error.  The table is grown for both kinds; an `n` entry is stored only when
the existing slot's `offset` is `0`; Go's `&&` short-circuit means
`table[x]` is never indexed for `f` entries, so a negative id panics only
for `n` entries. -/
def xrefTableRecord (off gen x : ℤ) (alloc : String) (table : List Xref) :
    Except XErr (List Xref) :=
  if alloc ≠ "f" ∧ alloc ≠ "n" then .error .malformedTable
  else if alloc = "n" then
    if x < 0 then .error .goPanic
    else
      let xn := x.toNat
      let t := padTo table (xn + 1)
      if (t.getD xn Xref.empty).offset = 0 then
        .ok (t.set xn ⟨⟨uint32 x, uint16 gen⟩, false, ObjPtr.zero, off⟩)
      else .ok t
  else .ok (if x < 0 then table else padTo table (x.toNat + 1))

/-- The inner loop of `readXrefTableData` (src/unnamed/part_000:403-420):
reads `count` entries `off gen alloc` starting at object id `x`.  Reading
past the end of input panics (`.goPanic`, the buffer's reload panic); a
wrongly-typed token is the "malformed xref table" error. -/
def readXrefRows : ℕ → ℤ → List Tok → List Xref → Except XErr (List Xref × List Tok)
  | 0, _, toks, table => .ok (table, toks)
  | count + 1, x, toks, table =>
    match toks with
    | Tok.int off :: Tok.int gen :: Tok.kw alloc :: rest =>
      match xrefTableRecord off gen x alloc table with
      | .error e => .error e
      | .ok t => readXrefRows count (x + 1) rest t
    | _ :: _ :: _ :: _ => .error .malformedTable
    | _ => .error .goPanic

/-- The outer loop of `readXrefTableData` (src/unnamed/part_000:392-423),
fueled by the number of tokens (each iteration consumes at least two, so
`toks.length` fuel always suffices; running out with input left can only
repeat the end-of-input panic).  Each pass reads a token, stops when it is
the keyword `trailer`, and otherwise reads the section header
`<start> <count>` followed by `count` entries. -/
def readXrefTableGo : ℕ → List Tok → List Xref → Except XErr (List Xref × List Tok)
  | _, [], _ => .error .goPanic
  | _, [t1], table =>
    if t1 = Tok.kw "trailer" then .ok (table, []) else .error .goPanic
  | 0, _, _ => .error .goPanic
  | fuel + 1, t1 :: t2 :: rest, table =>
    if t1 = Tok.kw "trailer" then .ok (table, t2 :: rest)
    else
      match t1, t2 with
      | Tok.int start, Tok.int count =>
        (match readXrefRows count.toNat start rest table with
         | .error e => .error e
         | .ok (t, rest') => readXrefTableGo fuel rest' t)
      | _, _ => .error .malformedTable

/-- `readXrefTableData`: reads xref-table sections from the token stream
into `table`, stopping at the `trailer` keyword and returning the table and
the remaining tokens. -/
def readXrefTableData (toks : List Tok) (table : List Xref) :
    Except XErr (List Xref × List Tok) :=
  readXrefTableGo toks.length toks table

/-- `decodeInt` (src/unnamed/part_000:337-343): big-endian accumulation
`x = x<<8 | c` on a signed 64-bit `int`, so the result is the big-endian
value truncated to 64 bits and read as two's complement. -/
def decodeInt (b : List ℕ) : ℤ :=
  let n := b.foldl (fun (x : ℕ) c => (x * 256 + c) % 2 ^ 64) 0
  if n < 2 ^ 63 then (n : ℤ) else (n : ℤ) - 2 ^ 64

/-- The type tag of an xref-stream record: `v1 := decodeInt(buf[0:w[0]])`,
forced to 1 when `w[0] == 0` (src/unnamed/part_000:309-312). -/
def xrefStreamV1 (w0 : ℤ) (buf : List ℕ) : ℤ :=
  if w0 = 0 then 1 else decodeInt (buf.take w0.toNat)

/-- Field 2 of an xref-stream record: `decodeInt(buf[w[0] : w[0]+w[1]])`. -/
def xrefStreamV2 (w0 w1 : ℤ) (buf : List ℕ) : ℤ :=
  decodeInt ((buf.drop w0.toNat).take w1.toNat)

/-- Field 3 of an xref-stream record:
`decodeInt(buf[w[0]+w[1] : w[0]+w[1]+w[2]])`. -/
def xrefStreamV3 (w0 w1 w2 : ℤ) (buf : List ℕ) : ℤ :=
  decodeInt ((buf.drop (w0.toNat + w1.toNat)).take w2.toNat)

/-- One xref-stream record (the body of the `i` loop of
`readXrefStreamData`, src/unnamed/part_000:304-332) applied to the record's
`wtotal` bytes `buf`.  Returns the updated table.  Field widths that make
the Go slicing `buf[0:w0]`, `buf[w0:w0+w1]`, `buf[w0+w1:w0+w1+w2]` panic are
`.goPanic`; a negative object id panics when the overwrite guard indexes
`table[x]` (the field decodes are pure, so checking the id first is
equivalent).  An entry whose slot already has a non-zero `ptr` is skipped;
an unknown type tag only prints and leaves the slot unchanged. -/
def xrefStreamRecord (w0 w1 w2 : ℤ) (buf : List ℕ) (x : ℤ) (table : List Xref) :
    Except XErr (List Xref) :=
  if w0 < 0 ∨ w1 < 0 ∨ w2 < 0 ∨ (buf.length : ℤ) < w0 + w1 + w2 then .error .goPanic
  else if x < 0 then .error .goPanic
  else if ((padTo table (x.toNat + 1)).getD x.toNat Xref.empty).ptr ≠ ObjPtr.zero then
    .ok (padTo table (x.toNat + 1))
  else if xrefStreamV1 w0 buf = 0 then
    .ok ((padTo table (x.toNat + 1)).set x.toNat ⟨⟨0, 65535⟩, false, ObjPtr.zero, 0⟩)
  else if xrefStreamV1 w0 buf = 1 then
    .ok ((padTo table (x.toNat + 1)).set x.toNat
      ⟨⟨uint32 x, uint16 (xrefStreamV3 w0 w1 w2 buf)⟩, false, ObjPtr.zero,
        xrefStreamV2 w0 w1 buf⟩)
  else if xrefStreamV1 w0 buf = 2 then
    .ok ((padTo table (x.toNat + 1)).set x.toNat
      ⟨⟨uint32 x, 0⟩, true, ⟨uint32 (xrefStreamV2 w0 w1 buf), 0⟩,
        xrefStreamV3 w0 w1 w2 buf⟩)
  else .ok (padTo table (x.toNat + 1))

/-- The inner `i` loop of `readXrefStreamData`: `count` records starting at
object id `start`, each consuming `wtotal` bytes of the decoded stream
`data`; too little data is the "error reading xref stream" error. -/
def xrefStreamRows (w0 w1 w2 : ℤ) (wtotal : ℕ) :
    ℕ → ℤ → List ℕ → List Xref → Except XErr (List Xref × List ℕ)
  | 0, _, data, table => .ok (table, data)
  | count + 1, x, data, table =>
    if data.length < wtotal then .error .readFailed
    else
      match xrefStreamRecord w0 w1 w2 (data.take wtotal) x table with
      | .error e => .error e
      | .ok t => xrefStreamRows w0 w1 w2 wtotal count (x + 1) (data.drop wtotal) t

/-- The `Index`-pair loop of `readXrefStreamData`. -/
def xrefStreamPairs (w0 w1 w2 : ℤ) (wtotal : ℕ) :
    List PdfObj → List ℕ → List Xref → Except XErr (List Xref)
  | [], _, table => .ok table
  | [_], _, _ => .error .malformedIndexPair
  | i0 :: i1 :: restIndex, data, table =>
    match i0, i1 with
    | PdfObj.int start, PdfObj.int count =>
      match xrefStreamRows w0 w1 w2 wtotal count.toNat start data table with
      | .error e => .error e
      | .ok (t, data') => xrefStreamPairs w0 w1 w2 wtotal restIndex data' t
    | _, _ => .error .malformedIndexPair

/-- `readXrefStreamData` (src/unnamed/part_000:265-335) for a stream whose
header is `hdr` and whose decoded payload is `data`.  A missing, non-array
or empty `Index` defaults to `[0, size]` (an empty parsed Go array is a nil
slice, which the `index == nil` test replaces); `W` must be an array of at
least three integers; `wtotal` is the sum of all `W` entries (a negative sum
makes `make([]byte, wtotal)` panic). -/
def readXrefStreamData (hdr : List (String × PdfObj)) (data : List ℕ)
    (table : List Xref) (size : ℤ) : Except XErr (List Xref) :=
  let index :=
    match dictGet hdr "Index" with
    | PdfObj.array a => if a.isEmpty then [PdfObj.int 0, PdfObj.int size] else a
    | _ => [PdfObj.int 0, PdfObj.int size]
  if ¬ index.length % 2 = 0 then .error .invalidIndex
  else
    match dictGet hdr "W" with
    | PdfObj.array ww =>
      match ww.mapM (fun o => match o with | PdfObj.int n => some n | _ => none) with
      | none => .error .invalidW
      | some w =>
        if w.length < 3 then .error .invalidW
        else
          let wtotal := w.foldl (· + ·) 0
          if wtotal < 0 then .error .goPanic
          else
            xrefStreamPairs (w.getD 0 0) (w.getD 1 0) (w.getD 2 0) wtotal.toNat
              index data table
    | _ => .error .missingW

/-- `ValueKind` (src/unnamed/part_000:454-468). -/
inductive ValueKind where
  | null | bool | integer | real | str | name | dict | array | stream
  deriving DecidableEq, Repr

/-- `Value.Kind` (src/unnamed/part_000:471-492): dynamic dispatch on the
stored data; `pdfobjptr` and `pdfobjdef` fall to the default case, `Null`. -/
def PdfObj.kind : PdfObj → ValueKind
  | PdfObj.bool _ => ValueKind.bool
  | PdfObj.int _ => ValueKind.integer
  | PdfObj.real _ => ValueKind.real
  | PdfObj.str _ => ValueKind.str
  | PdfObj.name _ => ValueKind.name
  | PdfObj.dict _ => ValueKind.dict
  | PdfObj.array _ => ValueKind.array
  | PdfObj.stream _ _ _ => ValueKind.stream
  | _ => ValueKind.null

/-- `Value` (src/unnamed/part_000:442-446) minus the reader pointer: every
function below takes the reader state explicitly, so the triple's first
component is left implicit.  `ptr` is the parent object id for decryption
scoping; `data` the raw object. -/
structure Value where
  ptr : ObjPtr
  data : PdfObj

instance : Inhabited Value := ⟨⟨ObjPtr.zero, PdfObj.null⟩⟩

/-- The zero `Value{}`: a PDF null. -/
def Value.nullV : Value := ⟨ObjPtr.zero, PdfObj.null⟩

def Value.kind (v : Value) : ValueKind := v.data.kind

/-- `Value.IsNull` (src/unnamed/part_000:450-452). -/
def Value.isNull (v : Value) : Bool :=
  match v.data with
  | PdfObj.null => true
  | _ => false

/-- Errors and panics of the resolver and the `Value` accessors.
`.goPanicR` is a Go run-time panic; `.outOfFuel` is the recursion budget of
the shallow embedding (the Go code recurses unboundedly through object
streams). -/
inductive RErr where
  | notAValidStream     -- ErrNotAValidStream, also returned by Index
  | objectOutOfBounds   -- ErrObjectOutOfBounds
  | unexpectedValueType -- ErrUnexpectedValueType
  | notAStream          -- ErrNotAStream
  | castError           -- Int/Int64: Could not cast
  | notAName            -- Name: not a valid name
  | unsupportedPath     -- Walk: unsupported path element type
  | goPanicR
  | outOfFuel
  deriving DecidableEq, Repr

/-- Reader state: the xref table plus an oracle `loadAt` abstracting the file
I/O of `resolve`'s inline branch (`newPdfBuffer` at `xref.offset` followed by
`readObject`); `none` models a read or parse failure, which panics inside the
buffer. -/
structure ReaderSt where
  xref : List Xref
  loadAt : ℤ → Option PdfObj

/-- The final type switch of `resolve` (src/unnamed/part_000:885-892):
references and object definitions are `ErrUnexpectedValueType`; every other
variant is wrapped as a `Value` under the given parent. -/
def finalizeResolve (parent : ObjPtr) (x : PdfObj) : Except RErr Value :=
  match x with
  | PdfObj.ref _ => .error .unexpectedValueType
  | PdfObj.objdef _ _ => .error .unexpectedValueType
  | _ => .ok ⟨parent, x⟩

/-- `Value.Key` (src/unnamed/part_000:690-700) with the recursive resolve
call abstracted as `recur`: dictionary (or stream header) lookup, the result
resolved; other kinds are `ErrNotAValidStream`.  A missing key is a Go map
miss, `nil`, which resolves to a null `Value`. -/
def valueKeyR (recur : ObjPtr → PdfObj → Except RErr Value) (v : Value)
    (key : String) : Except RErr Value :=
  match v.data with
  | PdfObj.dict d => recur v.ptr (dictGet d key)
  | PdfObj.stream hdr _ _ => recur v.ptr (dictGet hdr key)
  | _ => .error .notAValidStream

/-- `Value.Index` (src/unnamed/part_000:782-788) with the resolve call
abstracted: a non-array receiver or an out-of-bounds index is
`ErrNotAValidStream`; otherwise the element is resolved. -/
def valueIndexR (recur : ObjPtr → PdfObj → Except RErr Value) (v : Value)
    (i : ℤ) : Except RErr Value :=
  match v.data with
  | PdfObj.array x =>
    if i < 0 ∨ (x.length : ℤ) ≤ i then .error .notAValidStream
    else recur v.ptr (x.getD i.toNat PdfObj.null)
  | _ => .error .notAValidStream

/-- `Value.Len` (src/unnamed/part_000:792-798). -/
def valueLen (v : Value) : ℕ :=
  match v.data with
  | PdfObj.array x => x.length
  | _ => 0

/-- A `Walk` path element (`interface{}` argument): a string key, an integer
index, or a `WalkType` selector.  Go's `WalkChildren`/`WalkInherited`
constants. -/
inductive WalkType where
  | children | inherited
  deriving DecidableEq, Repr

inductive PathEl where
  | str (s : String) : PathEl
  | idx (i : ℤ) : PathEl
  | wt (t : WalkType) : PathEl

/-- The loop of `Value.DoWalkChildren` (src/unnamed/part_000:710-732): note
the Go code ranges over `path[:len(path)-1]`, so the LAST path element is
dropped and never looked up. -/
def doWalkGo (kf : Value → String → Except RErr Value)
    (xf : Value → ℤ → Except RErr Value) : Value → List PathEl → Except RErr Value
  | cur, [] => .ok cur
  | cur, PathEl.str s :: rest =>
    match kf cur s with
    | .error _ => .error .notAValidStream
    | .ok c => doWalkGo kf xf c rest
  | cur, PathEl.idx i :: rest =>
    match xf cur i with
    | .error _ => .error .notAValidStream
    | .ok c => doWalkGo kf xf c rest
  | _, PathEl.wt _ :: _ => .error .unsupportedPath

/-- `Value.DoWalkChildren`: walks all path elements but the last. -/
def doWalkChildren (kf : Value → String → Except RErr Value)
    (xf : Value → ℤ → Except RErr Value) (v : Value) (path : List PathEl) :
    Except RErr Value :=
  doWalkGo kf xf v path.dropLast

/-- `Value.Walk` (src/unnamed/part_000:734-757): a leading `WalkType`
selects the mode (`WalkInherited` panics, "not implemented yet"); otherwise
children mode. -/
def walkV (kf : Value → String → Except RErr Value)
    (xf : Value → ℤ → Except RErr Value) (v : Value) (path : List PathEl) :
    Except RErr Value :=
  match path with
  | [] => .ok v
  | PathEl.wt t :: rest =>
    match t with
    | WalkType.children => doWalkChildren kf xf v rest
    | WalkType.inherited => .error .goPanicR
  | _ => doWalkChildren kf xf v path

/-- `Value.Int64` (src/unnamed/part_000:589-603): optional walk, then the
`int64` assertion. -/
def valInt64W (kf : Value → String → Except RErr Value)
    (xf : Value → ℤ → Except RErr Value) (v : Value) (path : List PathEl) :
    Except RErr ℤ :=
  match (if path.isEmpty then .ok v else walkV kf xf v path) with
  | .error e => .error e
  | .ok v2 =>
    match v2.data with
    | PdfObj.int n => .ok n
    | _ => .error .castError

/-- `Value.Int` (src/unnamed/part_000:571-585): optional walk, then a
`data.(int)` assertion.  The dynamic type Go `int` is distinct from the
parser's `int64` and no code path ever stores a Go `int` in a `Value`, so
after a successful walk the assertion always fails. -/
def valIntW (kf : Value → String → Except RErr Value)
    (xf : Value → ℤ → Except RErr Value) (v : Value) (path : List PathEl) :
    Except RErr ℤ :=
  match (if path.isEmpty then .ok v else walkV kf xf v path) with
  | .error e => .error e
  | .ok _ => .error .castError

/-- `Value.Name` (src/unnamed/part_000:669-683): optional walk, then the
name assertion. -/
def valNameW (kf : Value → String → Except RErr Value)
    (xf : Value → ℤ → Except RErr Value) (v : Value) (path : List PathEl) :
    Except RErr String :=
  match (if path.isEmpty then .ok v else walkV kf xf v path) with
  | .error e => .error e
  | .ok v2 =>
    match v2.data with
    | PdfObj.name s => .ok s
    | _ => .error .notAName

/-- The `Search` loop of `resolve`'s compressed-object branch
(src/unnamed/part_000:834-867).  `name, _ := strm.Name("Type")` goes through
`Walk`, which drops the sole path element and yields the stream value itself,
never a name, so `name` is always `""` and the loop panics
("not an object stream") on its first iteration; were the type check ever to
pass, `strm.Int64("First")` would fail the same way and panic
("missing First") before any stream data is read.  The token scan over the
packed objects and the `Extends` chaining that follow are unreachable and
therefore not modelled (`objStmSearch_never_finds` below proves the
stub arm unreachable). -/
def objStmSearch (recur : ObjPtr → PdfObj → Except RErr Value) (strm : Value) :
    Except RErr PdfObj :=
  if strm.kind ≠ ValueKind.stream then .error .notAStream
  else
    let typeName :=
      match valNameW (valueKeyR recur) (valueIndexR recur) strm [PathEl.str "Type"] with
      | .ok s => s
      | .error _ => ""
    if typeName ≠ "ObjStm" then .error .goPanicR
    else
      match valInt64W (valueKeyR recur) (valueIndexR recur) strm [PathEl.str "First"] with
      | .error _ => .error .goPanicR
      | .ok _ => .error .goPanicR

/-- One step of `resolve` (src/unnamed/part_000:807-893) with the recursive
call abstracted as `recur`:
a non-reference goes to the final type switch; a reference is bounds-checked
against `uint32(len(r.xref))`, a pointer mismatch or a non-stream entry with
offset 0 yields the null `Value{}` without error, a compressed entry
resolves its owning stream and searches it, and an inline entry loads the
object definition at the stored offset (a non-`objdef` result or an id/gen
mismatch panics). -/
def resolveStep (r : ReaderSt) (recur : ObjPtr → PdfObj → Except RErr Value)
    (parent : ObjPtr) (x : PdfObj) : Except RErr Value :=
  match x with
  | PdfObj.ref ptr =>
    if r.xref.length % 2 ^ 32 ≤ ptr.id then .error .objectOutOfBounds
    else
      let xe := r.xref.getD ptr.id Xref.empty
      if xe.ptr ≠ ptr ∨ (xe.inStream = false ∧ xe.offset = 0) then
        .ok Value.nullV
      else if xe.inStream then
        match recur parent (PdfObj.ref xe.stream) with
        | .error e => .error e
        | .ok strm =>
          match objStmSearch recur strm with
          | .error e => .error e
          | .ok obj => finalizeResolve ptr obj
      else
        match r.loadAt xe.offset with
        | none => .error .goPanicR
        | some (PdfObj.objdef p inner) =>
          if p ≠ ptr then .error .goPanicR else finalizeResolve ptr inner
        | some _ => .error .goPanicR
  | _ => finalizeResolve parent x

/-- `Reader.resolve`, fueled: the fuel bounds the recursion through
compressed-object streams (the Go code recurses unboundedly there). -/
def resolve (r : ReaderSt) : ℕ → ObjPtr → PdfObj → Except RErr Value
  | 0, parent, x => resolveStep r (fun _ _ => .error .outOfFuel) parent x
  | fuel + 1, parent, x => resolveStep r (resolve r fuel) parent x

/-- `Value.Key` tied to the resolver. -/
def valueKey (r : ReaderSt) (fuel : ℕ) (v : Value) (key : String) :
    Except RErr Value :=
  valueKeyR (resolve r fuel) v key

/-- `Value.Index` tied to the resolver. -/
def valueIndex (r : ReaderSt) (fuel : ℕ) (v : Value) (i : ℤ) :
    Except RErr Value :=
  valueIndexR (resolve r fuel) v i

/-- `true` iff the accessor returned without error. -/
def isOkE (e : Except RErr Value) : Bool :=
  match e with
  | .ok _ => true
  | .error _ => false

/-- `true` iff the accessor returned a null `Value` without error. -/
def isNullOk (e : Except RErr Value) : Bool :=
  match e with
  | .ok v => v.isNull
  | .error _ => false

/-- `Page.findInherited` (src/page.go:90-99).  The Go loop
`for v := p.V; v.Kind() != Null; v, _ = v.Key("Parent")` has a body that
returns unconditionally (either the error or the looked-up value, even when
that value is null), so the `Parent` advancement is dead code and at most
one iteration runs: a null page value returns `Value{}`, anything else
returns `p.V.Key(key)`. -/
def findInherited (r : ReaderSt) (fuel : ℕ) (pv : Value) (key : String) :
    Except RErr Value :=
  if pv.kind = ValueKind.null then .ok Value.nullV
  else valueKey r fuel pv key

/-- `Page.MediaBox` (src/page.go:101-103). -/
def mediaBox (r : ReaderSt) (fuel : ℕ) (pv : Value) : Except RErr Value :=
  findInherited r fuel pv "MediaBox"

/-- `Page.CropBox` (src/page.go:105-107). -/
def cropBox (r : ReaderSt) (fuel : ℕ) (pv : Value) : Except RErr Value :=
  findInherited r fuel pv "CropBox"

/-- `Page.Resources` (src/page.go:110-112). -/
def resources (r : ReaderSt) (fuel : ℕ) (pv : Value) : Except RErr Value :=
  findInherited r fuel pv "Resources"

/-- Errors of the PNG-Up predictor reader. -/
inductive StreamErr where
  | unexpectedEOF   -- io.ReadFull got a partial row
  | malformedPngUp  -- "malformed PNG-Up encoding"
  deriving DecidableEq, Repr

/-- Byte-wise sum modulo 256 (`r.hist[i] += b` over a row). -/
def addRow (a b : List ℕ) : List ℕ :=
  List.zipWith (fun x y => (x + y) % 256) a b

/-- `pngUpReader.Read` (src/unnamed/part_000:979-1002), run to exhaustion of
the underlying stream: rows of `1 + cols` bytes are read, the leading filter
byte must be `2`, the whole row (filter byte included) is added byte-wise
into `hist`, and `hist[1:]` is emitted.  Returns the concatenated output and
the terminating condition (`none` = clean EOF at a row boundary).  The Go
`Read` hands the output out on demand; delivering it all at once is the same
byte sequence. -/
def pngUpReadAll (cols : ℕ) (hist : List ℕ) (input : List ℕ) :
    List ℕ × Option StreamErr :=
  if _h0 : input.length = 0 then ([], none)
  else if _h1 : input.length < 1 + cols then ([], some StreamErr.unexpectedEOF)
  else
    let row := input.take (1 + cols)
    if row.headD 0 ≠ 2 then ([], some StreamErr.malformedPngUp)
    else
      let hist2 := addRow hist row
      let rest := pngUpReadAll cols hist2 (input.drop (1 + cols))
      (hist2.drop 1 ++ rest.1, rest.2)
termination_by input.length
decreasing_by simp [List.length_drop]; omega

/-- Lexer errors for `readHexString`.  `.ranOut` models exhausting the
input: the real buffer then rereads `'\n'` (a space) forever and the
function does not return. -/
inductive LexErr where
  | malformedHex  -- errorf "malformed hex string"
  | ranOut
  deriving DecidableEq, Repr

/-- `isSpace` (src/font.go lexer part): NUL, tab, newline, form feed,
carriage return, space. -/
def isSpaceB (c : ℕ) : Bool :=
  c == 0 || c == 9 || c == 10 || c == 12 || c == 13 || c == 32

/-- Go's bitwise OR on 64-bit `int`: two's complement, computed on the
`Nat` bit patterns. -/
def orInt64 (a b : ℤ) : ℤ :=
  let n := Nat.lor (a % 2 ^ 64).toNat (b % 2 ^ 64).toNat
  if n < 2 ^ 63 then (n : ℤ) else (n : ℤ) - 2 ^ 64

/-- `unhex` (src/font.go:649-659): hex digit value, `-1` for anything
else. -/
def unhex (b : ℕ) : ℤ :=
  if 48 ≤ b ∧ b ≤ 57 then (b : ℤ) - 48
  else if 97 ≤ b ∧ b ≤ 102 then (b : ℤ) - 97 + 10
  else if 65 ≤ b ∧ b ≤ 70 then (b : ℤ) - 65 + 10
  else -1

/-- `buffer.readHexString` (src/font.go:622-647), over the bytes following
the opening `<`.  Per iteration: skip spaces, stop at `>`, otherwise take
the byte as the first nibble; skip spaces, take the next byte as the second
nibble with no `>` check; `unhex(c)<<4 | unhex(c2)` is negative iff either
nibble is not a hex digit (`-1` has all bits set), which raises the
malformed-hex panic — in particular a terminating `>` right after a lone
nibble.  Fuel bounds the loop (each iteration consumes input, so
`input.length + 1` always suffices); returns the accumulated string and the
unconsumed rest. -/
def readHexStringGo : ℕ → List ℕ → List ℕ → Except LexErr (List ℕ × List ℕ)
  | 0, _, _ => .error .ranOut
  | fuel + 1, input, acc =>
    match input.dropWhile isSpaceB with
    | [] => .error .ranOut
    | c :: rest1 =>
      if c = 62 then .ok (acc, rest1)
      else
        match rest1.dropWhile isSpaceB with
        | [] => .error .ranOut
        | c2 :: rest2 =>
          let x := orInt64 (unhex c * 16) (unhex c2)
          if x < 0 then .error .malformedHex
          else readHexStringGo fuel rest2 (acc ++ [x.toNat % 256])

/-- `readHexString` with enough fuel for any input. -/
def readHexString (input : List ℕ) : Except LexErr (List ℕ × List ℕ) :=
  readHexStringGo (input.length + 1) input []

/-- `PositionedChar` (src/font.go:239-242): a rune sequence and a glyph
width. -/
structure PositionedChar where
  text : List ℕ
  width : ℚ

/-- The single-result accessors of the historical `Value` API, which
src/font.go and src/page.go are written against (`v.Key(k)`, `v.Index(i)`,
`v.Int64()`, `v.Name()` used without error results): an error collapses to
the documented zero result — null `Value`, `0`, `""` — exactly what the
core file's doc comments specify for those accessors. -/
def keyV (r : ReaderSt) (fuel : ℕ) (v : Value) (k : String) : Value :=
  match valueKey r fuel v k with
  | .ok w => w
  | .error _ => Value.nullV

def indexV (r : ReaderSt) (fuel : ℕ) (v : Value) (i : ℤ) : Value :=
  match valueIndex r fuel v i with
  | .ok w => w
  | .error _ => Value.nullV

def int64V (v : Value) : ℤ :=
  match v.data with
  | PdfObj.int n => n
  | _ => 0

def nameV (v : Value) : String :=
  match v.data with
  | PdfObj.name s => s
  | _ => ""

/-- `Value.Float64` (src/unnamed/part_000:607-617): real, else integer
converted, else 0. -/
def float64V (v : Value) : ℚ :=
  match v.data with
  | PdfObj.real q => q
  | PdfObj.int n => (n : ℚ)
  | _ => 0

/-- `byteEncoder.Decode` (src/font.go:271-277): one `PositionedChar` per
input byte, rune from the 256-entry table, width from the grabber. -/
def byteEncoderDecode (table : ℕ → ℕ) (wg : ℕ → ℚ) (raw : List ℕ) :
    List PositionedChar :=
  raw.map (fun b => ⟨[table b], wg b⟩)

/-- `nopEncoder.Decode` (src/font.go:257-263): one `PositionedChar` per
input byte, rune = byte. -/
def nopEncoderDecode (wg : ℕ → ℚ) (raw : List ℕ) : List PositionedChar :=
  raw.map (fun b => ⟨[b], wg b⟩)

/-- The inner `j` loop of `dictEncoder.Decode` (src/font.go:217-233) for one
input byte `b`: scan the `Differences` array tracking the current code `n`
(initially `-1`); an Integer element resets `n`; a Name element, when
`b == n` and the glyph-name table maps it to a non-zero rune, ends the scan
with that rune, and otherwise increments `n`.  `ntr` is the `nameToRune`
table (0 = absent). -/
def dictEncGo (r : ReaderSt) (fuel : ℕ) (ntr : String → ℕ) (diffs : Value)
    (b : ℕ) : ℕ → ℤ → ℤ → ℕ → ℕ
  | 0, _, _, ch => ch
  | rem + 1, j, n, ch =>
    let x := indexV r fuel diffs j
    if x.kind = ValueKind.integer then
      dictEncGo r fuel ntr diffs b rem (j + 1) (int64V x) ch
    else if x.kind = ValueKind.name then
      if (b : ℤ) = n ∧ ntr (nameV x) ≠ 0 then ntr (nameV x)
      else dictEncGo r fuel ntr diffs b rem (j + 1) (n + 1) ch
    else
      dictEncGo r fuel ntr diffs b rem (j + 1) n ch

/-- `dictEncoder.Decode` (src/font.go:212-237): one `PositionedChar` per
input byte; the rune defaults to the byte itself. -/
def dictEncoderDecode (r : ReaderSt) (fuel : ℕ) (ntr : String → ℕ)
    (wg : ℕ → ℚ) (diffs : Value) (raw : List ℕ) : List PositionedChar :=
  raw.map (fun b =>
    let ch := dictEncGo r fuel ntr diffs b (valueLen diffs) 0 (-1) b
    ⟨[ch], wg (ch % 2 ^ 32)⟩)

/-- `WidthRange1` (src/font.go:60-64); `end` is a Lean keyword, hence
`ending`. -/
structure WidthRange1 where
  start : ℕ
  ending : ℕ
  widths : List ℚ

/-- `WidthRange2` (src/font.go:66-70). -/
structure WidthRange2 where
  start : ℕ
  ending : ℕ
  width : ℚ

/-- `CIDWidthGrabber` (src/font.go:72-76). -/
structure CIDWidthGrabber where
  wmap1 : List WidthRange1
  wmap2 : List WidthRange2
  defaultwidth : ℚ

/-- `DefaultWidthGrabber` (src/font.go:35-39). -/
structure DefaultWidthGrabber where
  first : ℕ
  last : ℕ
  widths : List ℚ

/-- The `WidthGrabber` interface: one of the two implementations. -/
inductive WG where
  | cid (g : CIDWidthGrabber) : WG
  | dflt (g : DefaultWidthGrabber) : WG

/-- `CIDWidthGrabber.Width` (src/font.go:124-136): first matching range in
`wmap1`, then `wmap2`, else the default width.  (The Go index
`wr1.widths[code-wr1.start]` panics when the stored widths list is shorter
than the range; modelled with a zero default — the parser below only ever
stores empty ranges.) -/
def cidWidth (g : CIDWidthGrabber) (code : ℕ) : ℚ :=
  match g.wmap1.find? (fun wr => decide (wr.start ≤ code ∧ code < wr.ending)) with
  | some wr => wr.widths.getD (code - wr.start) 0
  | none =>
    match g.wmap2.find? (fun wr => decide (wr.start ≤ code ∧ code < wr.ending)) with
    | some wr => wr.width
    | none => g.defaultwidth

/-- `DefaultWidthGrabber.Width` (src/font.go:53-58). -/
def defaultWidth (g : DefaultWidthGrabber) (code : ℕ) : ℚ :=
  if code < g.first ∨ g.last ≤ code then 0
  else g.widths.getD (code - g.first) 0

/-- `WidthGrabber.Width` dispatch. -/
def wgWidth (g : WG) (code : ℕ) : ℚ :=
  match g with
  | WG.cid c => cidWidth c code
  | WG.dflt d => defaultWidth d code

/-- `CreateDefaultWidthGrabber` (src/font.go:41-51). -/
def createDefaultWidthGrabber (r : ReaderSt) (fuel : ℕ) (f : Value) :
    WG × Bool :=
  let first := uint32 (int64V (keyV r fuel f "FirstChar"))
  let lastc := uint32 (int64V (keyV r fuel f "LastChar"))
  let w := keyV r fuel f "Widths"
  let widths := (List.range (valueLen w)).map (fun i => float64V (indexV r fuel w (i : ℤ)))
  (WG.dflt ⟨first, lastc, widths⟩, true)

/-- The parse loop of `CreateCIDWidthGrabber` (src/font.go:92-118), with a
budget for the outer loop (each pass advances `i` by the loop-carried `sz`,
2 or 3, so `valueLen w + 1` suffices).  The inner loop over a widths
sub-array (`for j := 0; j < unk.Len(); i += 1`) increments the wrong
variable and never terminates when the sub-array is non-empty; `none` models
that divergence.  When the sub-array is empty the widths slice stays the
zero-filled `make` result (no append runs) and an empty range is stored. -/
def cidParseGo (r : ReaderSt) (fuel : ℕ) (w : Value) :
    ℕ → ℤ → CIDWidthGrabber → Option CIDWidthGrabber
  | 0, _, _ => none
  | budget + 1, i, cw =>
    if i < (valueLen w : ℤ) then
      let glyph := uint32 (int64V (indexV r fuel w i))
      let unk := indexV r fuel w (i + 1)
      if unk.kind = ValueKind.array then
        if valueLen unk ≠ 0 then none
        else
          let widths : List ℚ := List.replicate (valueLen unk) 0
          let wr1 : WidthRange1 := ⟨glyph, (glyph + valueLen unk) % 2 ^ 32, widths⟩
          cidParseGo r fuel w budget (i + 2) { cw with wmap1 := cw.wmap1 ++ [wr1] }
      else
        let endglyph := uint32 (int64V unk)
        let width := float64V (indexV r fuel w (i + 2))
        cidParseGo r fuel w budget (i + 3)
          { cw with wmap2 := cw.wmap2 ++ [⟨glyph, endglyph, width⟩] }
    else some cw

/-- `CreateCIDWidthGrabber` (src/font.go:78-121).  Note the guards: the
function bails out (`(nil, false)`) when `DescendantFonts` is PRESENT
(`df.Kind() != 0`, i.e. not Null) and likewise when `W` is present, so the
parse loop is only ever reached with a null `W` (whose `Len()` is 0).
`none` models divergence of the parse loop. -/
def createCIDWidthGrabber (r : ReaderSt) (fuel : ℕ) (f : Value) :
    Option (Option WG × Bool) :=
  let df := keyV r fuel f "DescendantFonts"
  if df.kind ≠ ValueKind.null then some (none, false)
  else
    let w := keyV r fuel (indexV r fuel df 0) "W"
    if w.kind ≠ ValueKind.null then some (none, false)
    else
      let dw := float64V (keyV r fuel (indexV r fuel (keyV r fuel f "DescendantFonts") 0) "DW")
      match cidParseGo r fuel w (valueLen w + 1) 0 ⟨[], [], dw⟩ with
      | none => none
      | some cw => some (some (WG.cid cw), true)

/-- The width-grabber selection of `FontFromValue` (src/font.go:23-33):
take the CID grabber when `CreateCIDWidthGrabber` reports `ok`, else the
default grabber. -/
def fontWidthGrabber (r : ReaderSt) (fuel : ℕ) (v : Value) : Option (Option WG) :=
  match createCIDWidthGrabber r fuel v with
  | none => none
  | some (wg, ok) =>
    if ok then some wg
    else some (some (createDefaultWidthGrabber r fuel v).1)

/-- Outcomes of `initEncrypt`: success is `none`; `.invalidPassword` is
`ErrInvalidPassword`; `.otherErr` tags any of its other failures. -/
inductive EncErr where
  | invalidPassword
  | otherErr (code : ℕ)
  deriving DecidableEq, Repr

/-- The password retry loop of `NewReaderEncrypted`
(src/unnamed/part_000:176-184) over the successive values the callback
returns: an empty string breaks out (`some false`), a password accepted by
`initEncrypt` returns success (`some true`), otherwise the loop continues.
The counter is the number of callback invocations; `none` means the supplied
list ran out before the loop ended. -/
def pwLoop (initEnc : String → Option EncErr) : List String → ℕ → ℕ × Option Bool
  | [], k => (k, none)
  | p :: rest, k =>
    if p = "" then (k + 1, some false)
    else if initEnc p = none then (k + 1, some true)
    else pwLoop initEnc rest (k + 1)

/-- The decryption handshake of `NewReaderEncrypted`
(src/unnamed/part_000:166-185): no `Encrypt` in the trailer returns the
reader at once; otherwise `initEncrypt("")` is tried first; on any failure
other than `ErrInvalidPassword`, or with no callback, that error is
returned; otherwise the retry loop runs and a break (empty password from
the callback) returns the ORIGINAL error `err`, which at that point is
`ErrInvalidPassword`.  `initEnc` abstracts `initEncrypt` over the opened
file; the result pairs the number of callback invocations with the outcome. -/
def newReaderEncryptedFlow (hasEncrypt : Bool) (hasPw : Bool)
    (initEnc : String → Option EncErr) (pws : List String) :
    ℕ × Option (Except EncErr Unit) :=
  if ¬hasEncrypt then (0, some (.ok ()))
  else
    match initEnc "" with
    | none => (0, some (.ok ()))
    | some e =>
      if ¬hasPw ∨ e ≠ EncErr.invalidPassword then (0, some (.error e))
      else
        match pwLoop initEnc pws 0 with
        | (k, none) => (k, none)
        | (k, some true) => (k, some (.ok ()))
        | (k, some false) => (k, some (.error e))

/-- The MD5 sine-derived constant table `K[i] = floor(|sin(i+1)| * 2^32)`
(RFC 1321), used by Go's `crypto/md5`. -/
def md5K : List ℕ :=
  [0xd76aa478, 0xe8c7b756, 0x242070db, 0xc1bdceee,
   0xf57c0faf, 0x4787c62a, 0xa8304613, 0xfd469501,
   0x698098d8, 0x8b44f7af, 0xffff5bb1, 0x895cd7be,
   0x6b901122, 0xfd987193, 0xa679438e, 0x49b40821,
   0xf61e2562, 0xc040b340, 0x265e5a51, 0xe9b6c7aa,
   0xd62f105d, 0x02441453, 0xd8a1e681, 0xe7d3fbc8,
   0x21e1cde6, 0xc33707d6, 0xf4d50d87, 0x455a14ed,
   0xa9e3e905, 0xfcefa3f8, 0x676f02d9, 0x8d2a4c8a,
   0xfffa3942, 0x8771f681, 0x6d9d6122, 0xfde5380c,
   0xa4beea44, 0x4bdecfa9, 0xf6bb4b60, 0xbebfbc70,
   0x289b7ec6, 0xeaa127fa, 0xd4ef3085, 0x04881d05,
   0xd9d4d039, 0xe6db99e5, 0x1fa27cf8, 0xc4ac5665,
   0xf4292244, 0x432aff97, 0xab9423a7, 0xfc93a039,
   0x655b59c3, 0x8f0ccc92, 0xffeff47d, 0x85845dd1,
   0x6fa87e4f, 0xfe2ce6e0, 0xa3014314, 0x4e0811a1,
   0xf7537e82, 0xbd3af235, 0x2ad7d2bb, 0xeb86d391]

/-- The MD5 per-round left-rotation amounts. -/
def md5S : List ℕ :=
  [7, 12, 17, 22, 7, 12, 17, 22, 7, 12, 17, 22, 7, 12, 17, 22,
   5, 9, 14, 20, 5, 9, 14, 20, 5, 9, 14, 20, 5, 9, 14, 20,
   4, 11, 16, 23, 4, 11, 16, 23, 4, 11, 16, 23, 4, 11, 16, 23,
   6, 10, 15, 21, 6, 10, 15, 21, 6, 10, 15, 21, 6, 10, 15, 21]

/-- 32-bit left rotation. -/
def rotl32 (x s : ℕ) : ℕ :=
  ((x <<< s) ||| (x >>> (32 - s))) % 2 ^ 32

/-- The MD5 round function for step `i` (F, G, H, I). -/
def md5F (i b c d : ℕ) : ℕ :=
  if i < 16 then (b &&& c) ||| ((b ^^^ 0xffffffff) &&& d)
  else if i < 32 then (d &&& b) ||| ((d ^^^ 0xffffffff) &&& c)
  else if i < 48 then b ^^^ c ^^^ d
  else c ^^^ (b ||| (d ^^^ 0xffffffff))

/-- The MD5 message-word index for step `i`. -/
def md5G (i : ℕ) : ℕ :=
  if i < 16 then i
  else if i < 32 then (5 * i + 1) % 16
  else if i < 48 then (3 * i + 5) % 16
  else (7 * i) % 16

/-- A 32-bit word as four little-endian bytes. -/
def le32 (x : ℕ) : List ℕ :=
  [x % 256, x / 256 % 256, x / 65536 % 256, x / 16777216 % 256]

/-- The sixteen little-endian 32-bit message words of a 64-byte block. -/
def md5Words (block : List ℕ) : List ℕ :=
  (List.range 16).map (fun k =>
    block.getD (4 * k) 0 + 256 * block.getD (4 * k + 1) 0 +
      65536 * block.getD (4 * k + 2) 0 + 16777216 * block.getD (4 * k + 3) 0)

/-- One MD5 step on the running state `(a, b, c, d)`. -/
def md5Step (m : List ℕ) (st : ℕ × ℕ × ℕ × ℕ) (i : ℕ) : ℕ × ℕ × ℕ × ℕ :=
  match st with
  | (a, b, c, d) =>
    let tmp := (a + md5F i b c d + md5K.getD i 0 + m.getD (md5G i) 0) % 2 ^ 32
    let nb := (b + rotl32 tmp (md5S.getD i 0)) % 2 ^ 32
    (d, nb, b, c)

/-- One MD5 block: 64 steps, then the Davies–Meyer feed-forward. -/
def md5Block (st : ℕ × ℕ × ℕ × ℕ) (block : List ℕ) : ℕ × ℕ × ℕ × ℕ :=
  match st, (List.range 64).foldl (md5Step (md5Words block)) st with
  | (a0, b0, c0, d0), (a, b, c, d) =>
    ((a0 + a) % 2 ^ 32, (b0 + b) % 2 ^ 32, (c0 + c) % 2 ^ 32, (d0 + d) % 2 ^ 32)

/-- MD5 padding: `0x80`, zeros to 56 mod 64, then the bit length as eight
little-endian bytes. -/
def md5Pad (msg : List ℕ) : List ℕ :=
  let l := msg.length
  let zeros := (119 - l % 64) % 64
  let bitlen := 8 * l % 2 ^ 64
  msg ++ [0x80] ++ List.replicate zeros 0 ++
    [bitlen % 256, bitlen / 2 ^ 8 % 256, bitlen / 2 ^ 16 % 256,
     bitlen / 2 ^ 24 % 256, bitlen / 2 ^ 32 % 256, bitlen / 2 ^ 40 % 256,
     bitlen / 2 ^ 48 % 256, bitlen / 2 ^ 56 % 256]

/-- Split a byte list into 64-byte blocks (fueled; each step consumes at
least one byte, so `l.length` fuel always suffices). -/
def chunks64Go : ℕ → List ℕ → List (List ℕ)
  | 0, _ => []
  | fuel + 1, l => if l.isEmpty then [] else l.take 64 :: chunks64Go fuel (l.drop 64)

/-- Split a byte list into 64-byte blocks. -/
def chunks64 (l : List ℕ) : List (List ℕ) :=
  chunks64Go l.length l

/-- MD5 of a byte sequence (16 output bytes), as computed by Go's
`crypto/md5`. -/
def md5 (msg : List ℕ) : List ℕ :=
  match (chunks64 (md5Pad msg)).foldl md5Block
      (0x67452301, 0xefcdab89, 0x98badcfe, 0x10325476) with
  | (a, b, c, d) => le32 a ++ le32 b ++ le32 c ++ le32 d

/-- `cryptKey` (src/unnamed/part_000:1151-1159): MD5 over the file key, the
three low-order little-endian bytes of the object id, the two low-order
little-endian bytes of the generation, and the literal `sAlT` when AES is in
use.  The Go code returns `h.Sum(nil)` — the full 16-byte digest, with no
truncation. -/
def cryptKey (key : List ℕ) (useAES : Bool) (ptr : ObjPtr) : List ℕ :=
  md5 (key ++
    [byteOf ptr.id, byteOf (ptr.id / 2 ^ 8), byteOf (ptr.id / 2 ^ 16),
     byteOf ptr.gen, byteOf (ptr.gen / 2 ^ 8)] ++
    (if useAES then [115, 65, 108, 84] else []))

/-- Modelled from the spec: the per-object key of spec §4.E, with the final
"Truncate to `min(file_key_len + 5, 16)` bytes" step the source lacks. -/
def cryptKeySpec (key : List ℕ) (useAES : Bool) (ptr : ObjPtr) : List ℕ :=
  (md5 (key ++
    [byteOf ptr.id, byteOf (ptr.id / 2 ^ 8), byteOf (ptr.id / 2 ^ 16),
     byteOf ptr.gen, byteOf (ptr.gen / 2 ^ 8)] ++
    (if useAES then [115, 65, 108, 84] else []))).take (min (key.length + 5) 16)

/-!  Theorems.  -/

/-- A reader with an empty xref table and a failing load oracle, used for
concrete evaluations that never reach the file. -/
def rTriv : ReaderSt := ⟨[], fun _ => none⟩

/-- C2: resolving a reference with id at or beyond the xref length fails
with `ObjectOutOfBounds`; resolving a reference whose slot is free (not
in-stream, offset 0) or whose stored pointer differs from the reference
yields the null `Value` without error.  The bound `2^32` hypothesis
discharges the `uint32(len(r.xref))` conversion in the Go comparison. -/
theorem resolve_out_of_bounds_and_free (r : ReaderSt) (fuel : ℕ)
    (parent ptr : ObjPtr) (hlen : r.xref.length < 2 ^ 32) :
    (r.xref.length ≤ ptr.id →
      resolve r fuel parent (PdfObj.ref ptr) = .error RErr.objectOutOfBounds)
    ∧ (ptr.id < r.xref.length →
      ((r.xref.getD ptr.id Xref.empty).inStream = false ∧
          (r.xref.getD ptr.id Xref.empty).offset = 0) ∨
        (r.xref.getD ptr.id Xref.empty).ptr ≠ ptr →
      resolve r fuel parent (PdfObj.ref ptr) = .ok Value.nullV) := by
  have hmod : r.xref.length % 2 ^ 32 = r.xref.length := Nat.mod_eq_of_lt hlen
  constructor
  · intro hge
    have hcond : r.xref.length % 2 ^ 32 ≤ ptr.id := by omega
    cases fuel <;>
      · simp only [resolve, resolveStep]
        rw [if_pos hcond]
  · intro hlt hfree
    have hnot : ¬ r.xref.length % 2 ^ 32 ≤ ptr.id := by omega
    have hguard : (r.xref.getD ptr.id Xref.empty).ptr ≠ ptr ∨
        ((r.xref.getD ptr.id Xref.empty).inStream = false ∧
          (r.xref.getD ptr.id Xref.empty).offset = 0) := hfree.symm
    cases fuel <;>
      · simp only [resolve, resolveStep]
        rw [if_neg hnot, if_pos hguard]

/-- C2 witness: a one-entry table; id 5 is out of bounds, id 0 hits the
free (zero) entry. -/
theorem resolve_out_of_bounds_and_free_witness :
    resolve ⟨[Xref.empty], fun _ => none⟩ 0 ObjPtr.zero (PdfObj.ref ⟨5, 0⟩)
      = .error RErr.objectOutOfBounds
    ∧ resolve ⟨[Xref.empty], fun _ => none⟩ 0 ObjPtr.zero (PdfObj.ref ⟨0, 0⟩)
      = .ok Value.nullV := by
  refine ⟨(resolve_out_of_bounds_and_free _ 0 _ _ (by norm_num)).1 (by norm_num), ?_⟩
  exact (resolve_out_of_bounds_and_free _ 0 _ _ (by norm_num)).2 (by norm_num)
    (Or.inl (by constructor <;> rfl))

/-- C4: the page-attribute accessors do not walk up the page tree: for a
page dictionary without `MediaBox` whose `Parent` dictionary has
`MediaBox = 7`, `MediaBox()` returns the null `Value`, although the very
same key lookup on the parent returns 7 — the `findInherited` loop body
returns unconditionally on the first iteration, so the `Parent` step is
dead code. -/
theorem findInherited_ignores_parent_bug :
    mediaBox rTriv 1 ⟨ObjPtr.zero,
        PdfObj.dict [("Parent", PdfObj.dict [("MediaBox", PdfObj.int 7)])]⟩
      = .ok Value.nullV
    ∧ valueKey rTriv 1 ⟨ObjPtr.zero, PdfObj.dict [("MediaBox", PdfObj.int 7)]⟩
        "MediaBox"
      = .ok ⟨ObjPtr.zero, PdfObj.int 7⟩ :=
  ⟨rfl, rfl⟩

/-- C5: a font whose `DescendantFonts[0].W` is an Array is REJECTED by
`CreateCIDWidthGrabber` (the `df.Kind() != 0` guard bails out precisely when
`DescendantFonts` is present), so `FontFromValue` falls back to the default
width grabber, and a code in the `W` range gets width 0 instead of the
table's 500 or the `DW` 1000. -/
theorem createCIDWidthGrabber_rejects_cid_font_bug :
    createCIDWidthGrabber rTriv 1 ⟨ObjPtr.zero,
        PdfObj.dict [("DescendantFonts", PdfObj.array
          [PdfObj.dict [("W", PdfObj.array [PdfObj.int 0, PdfObj.int 2, PdfObj.int 500]),
                        ("DW", PdfObj.int 1000)]])]⟩
      = some (none, false)
    ∧ fontWidthGrabber rTriv 1 ⟨ObjPtr.zero,
        PdfObj.dict [("DescendantFonts", PdfObj.array
          [PdfObj.dict [("W", PdfObj.array [PdfObj.int 0, PdfObj.int 2, PdfObj.int 500]),
                        ("DW", PdfObj.int 1000)]])]⟩
      = some (some (WG.dflt ⟨0, 0, []⟩))
    ∧ wgWidth (WG.dflt ⟨0, 0, []⟩) 1 = 0 :=
  ⟨rfl, rfl, rfl⟩

/-- C10: each byte-oriented encoder emits exactly one `PositionedChar` per
input byte. -/
theorem encoders_decode_length (table : ℕ → ℕ) (wg : ℕ → ℚ) (r : ReaderSt)
    (fuel : ℕ) (ntr : String → ℕ) (diffs : Value) (raw : List ℕ) :
    (byteEncoderDecode table wg raw).length = raw.length
    ∧ (nopEncoderDecode wg raw).length = raw.length
    ∧ (dictEncoderDecode r fuel ntr wg diffs raw).length = raw.length := by
  refine ⟨?_, ?_, ?_⟩ <;>
    simp [byteEncoderDecode, nopEncoderDecode, dictEncoderDecode]

/-- C3 counterexample: for a 40-bit (5-byte) file key the spec's truncation
to `min(5 + 5, 16) = 10` bytes differs from the code's full 16-byte MD5
digest. -/
theorem cryptKey_truncation_counterexample :
    cryptKey [1, 2, 3, 4, 5] false ⟨7, 3⟩ ≠ cryptKeySpec [1, 2, 3, 4, 5] false ⟨7, 3⟩ := by
  decide

/-- C8 counterexample: the hex string `<a>` has an odd number of hex digits;
the claim says the lone nibble is padded with 0 (yielding the byte `0xA0`),
but `readHexString` consumes the `>` as the second nibble and fails with the
malformed-hex error. -/
theorem readHexString_odd_nibble_counterexample :
    readHexString [97, 62] = .error LexErr.malformedHex := by rfl

/-- C9 counterexample: for the two-element array `[null null]` and `i = 1`,
`Index(0)` succeeds and `Index(1)` returns a null `Value` without error (the
element itself is null), yet `Len = 2 ≠ 1`, so the claimed equivalence fails. -/
theorem index_len_iff_counterexample :
    ¬ (((valueLen ⟨ObjPtr.zero, PdfObj.array [PdfObj.null, PdfObj.null]⟩ : ℤ) = 1) ↔
      (isOkE (valueIndex rTriv 1 ⟨ObjPtr.zero, PdfObj.array [PdfObj.null, PdfObj.null]⟩ 0) = true
        ∧ isNullOk (valueIndex rTriv 1 ⟨ObjPtr.zero, PdfObj.array [PdfObj.null, PdfObj.null]⟩ 1) = true)) := by
  decide

/-- C9 as amended: for an Array value all of whose elements resolve without
error and any integer `i ≥ 1`, `Len == i` iff `Index(i-1)` succeeds and
`Index(i)` returns an ERROR (out of bounds), rather than a null value. -/
theorem index_len_iff_amended (r : ReaderSt) (fuel : ℕ) (a : Value)
    (x : List PdfObj) (hx : a.data = PdfObj.array x)
    (hres : ∀ e ∈ x, isOkE (resolve r fuel a.ptr e) = true) (i : ℤ) (hi : 1 ≤ i) :
    ((valueLen a : ℤ) = i ↔
      (isOkE (valueIndex r fuel a (i - 1)) = true
        ∧ isOkE (valueIndex r fuel a i) = false)) := by
  have hlen : valueLen a = x.length := by simp [valueLen, hx]
  constructor
  · intro hleni
    rw [hlen] at hleni
    constructor
    · have h0 : ¬ ((i - 1 : ℤ) < 0 ∨ (x.length : ℤ) ≤ i - 1) := by omega
      simp only [valueIndex, valueIndexR, hx]
      rw [if_neg h0]
      apply hres
      have hb : (i - 1).toNat < x.length := by omega
      rw [List.getD_eq_getElem _ _ hb]
      exact List.getElem_mem hb
    · have h1 : ((i : ℤ) < 0 ∨ (x.length : ℤ) ≤ i) := by omega
      simp only [valueIndex, valueIndexR, hx]
      rw [if_pos h1]
      rfl
  · rintro ⟨h1, h2⟩
    rw [hlen]
    simp only [valueIndex, valueIndexR, hx] at h1 h2
    by_cases hc1 : ((i - 1 : ℤ) < 0 ∨ (x.length : ℤ) ≤ i - 1)
    · rw [if_pos hc1] at h1
      simp [isOkE] at h1
    · by_cases hc2 : ((i : ℤ) < 0 ∨ (x.length : ℤ) ≤ i)
      · push_neg at hc1
        omega
      · rw [if_neg hc2] at h2
        push_neg at hc2
        have hb : i.toNat < x.length := by omega
        have hmem : x.getD i.toNat PdfObj.null ∈ x := by
          rw [List.getD_eq_getElem _ _ hb]
          exact List.getElem_mem hb
        rw [hres _ hmem] at h2
        exact absurd h2 (by simp)

/-- C9 amended witness: the one-element array `[5]` at `i = 1`. -/
theorem index_len_iff_amended_witness :
    ((valueLen ⟨ObjPtr.zero, PdfObj.array [PdfObj.int 5]⟩ : ℤ) = 1 ↔
      (isOkE (valueIndex rTriv 0 ⟨ObjPtr.zero, PdfObj.array [PdfObj.int 5]⟩ 0) = true
        ∧ isOkE (valueIndex rTriv 0 ⟨ObjPtr.zero, PdfObj.array [PdfObj.int 5]⟩ 1) = false)) :=
  index_len_iff_amended rTriv 0 _ [PdfObj.int 5] rfl (by decide) 1 (by norm_num)

/-- The password loop applied to failing passwords followed by an empty
string: one callback invocation per element, then the break. -/
theorem pwLoop_append_fail (initEnc : String → Option EncErr) (ps : List String)
    (hps : ∀ p ∈ ps, p ≠ "" ∧ initEnc p ≠ none) :
    ∀ k, pwLoop initEnc (ps ++ [""]) k = (k + ps.length + 1, some false) := by
  induction ps with
  | nil => intro k; simp [pwLoop]
  | cons p t ih =>
    intro k
    obtain ⟨hne, hfail⟩ := hps p (by simp)
    simp only [List.cons_append, pwLoop]
    rw [if_neg hne, if_neg hfail, List.append_eq,
      ih (fun q hq => hps q (by simp [hq])) (k + 1)]
    simp
    omega

/-- C6: with `Encrypt` present, `initEncrypt("")` is attempted first and on
success the callback is never invoked; a failure other than
`InvalidPassword`, or the absence of a callback, returns that error with no
invocation; and when the empty-password attempt fails with
`InvalidPassword`, the callback is invoked once per failing password and a
returned empty string ends the attempts with the `InvalidPassword` error. -/
theorem newReaderEncrypted_password_flow (initEnc : String → Option EncErr)
    (pws : List String) (hasPw : Bool) :
    (initEnc "" = none →
      newReaderEncryptedFlow true hasPw initEnc pws = (0, some (.ok ())))
    ∧ (∀ e, initEnc "" = some e → e ≠ EncErr.invalidPassword →
      newReaderEncryptedFlow true hasPw initEnc pws = (0, some (.error e)))
    ∧ (∀ e, initEnc "" = some e →
      newReaderEncryptedFlow true false initEnc pws = (0, some (.error e)))
    ∧ (initEnc "" = some EncErr.invalidPassword →
      ∀ ps : List String, (∀ p ∈ ps, p ≠ "" ∧ initEnc p ≠ none) →
      newReaderEncryptedFlow true true initEnc (ps ++ [""])
        = (ps.length + 1, some (.error EncErr.invalidPassword))) := by
  refine ⟨?_, ?_, ?_, ?_⟩
  · intro h
    simp [newReaderEncryptedFlow, h]
  · intro e h hne
    simp [newReaderEncryptedFlow, h, hne]
  · intro e h
    simp [newReaderEncryptedFlow, h]
  · intro h ps hps
    simp only [newReaderEncryptedFlow, h]
    rw [if_neg (by simp)]
    rw [pwLoop_append_fail initEnc ps hps 0]
    simp

/-- C6 witness: two failing passwords, then an empty string; and a file
that opens with the empty password. -/
theorem newReaderEncrypted_password_flow_witness :
    newReaderEncryptedFlow true true
        (fun s => if s = "good" then none else some EncErr.invalidPassword)
        (["a", "b"] ++ [""])
      = (3, some (.error EncErr.invalidPassword))
    ∧ newReaderEncryptedFlow true true (fun _ => none) []
      = (0, some (.ok ())) :=
  ⟨(newReaderEncrypted_password_flow _ [] true).2.2.2 (by decide) ["a", "b"] (by decide),
   (newReaderEncrypted_password_flow _ [] true).1 rfl⟩

/-- MD5 always yields sixteen bytes. -/
theorem md5_length (msg : List ℕ) : (md5 msg).length = 16 := by
  unfold md5
  rcases (chunks64 (md5Pad msg)).foldl md5Block
    (0x67452301, 0xefcdab89, 0x98badcfe, 0x10325476) with ⟨a, b, c, d⟩
  simp [le32]

/-- C3 as amended: the per-object key is the FULL 16-byte MD5 digest of
`file_key ∥ id-LE24 ∥ gen-LE16` (with the `sAlT` suffix for AES); no
truncation is applied.  For file keys of length at least 11 the spec's
`min(file_key_len + 5, 16)` truncation coincides with the code. -/
theorem cryptKey_full_digest_amended (key : List ℕ) (useAES : Bool) (ptr : ObjPtr) :
    (cryptKey key useAES ptr).length = 16
    ∧ cryptKey key useAES ptr =
      md5 (key ++
        [byteOf ptr.id, byteOf (ptr.id / 2 ^ 8), byteOf (ptr.id / 2 ^ 16),
         byteOf ptr.gen, byteOf (ptr.gen / 2 ^ 8)] ++
        (if useAES then [115, 65, 108, 84] else []))
    ∧ (11 ≤ key.length → cryptKeySpec key useAES ptr = cryptKey key useAES ptr) := by
  refine ⟨md5_length _, rfl, fun h => ?_⟩
  unfold cryptKeySpec cryptKey
  rw [min_eq_right (by omega)]
  exact List.take_of_length_le (by rw [md5_length])

/-- C3 amended witness: an 11-byte file key, where the truncation formula
coincides with the full digest. -/
theorem cryptKey_full_digest_amended_witness :
    11 ≤ ([0, 1, 2, 3, 4, 5, 6, 7, 8, 9, 10] : List ℕ).length
    ∧ cryptKeySpec [0, 1, 2, 3, 4, 5, 6, 7, 8, 9, 10] false ⟨1, 0⟩
      = cryptKey [0, 1, 2, 3, 4, 5, 6, 7, 8, 9, 10] false ⟨1, 0⟩ :=
  ⟨by decide, (cryptKey_full_digest_amended _ _ _).2.2 (by decide)⟩

/-- Reading an entry of the zero padding gives the same answer as reading
the unpadded table (out-of-range lookups default to the zero entry). -/
theorem getD_padTo (t : List Xref) (n x : ℕ) :
    (padTo t n).getD x Xref.empty = t.getD x Xref.empty := by
  unfold padTo
  rcases lt_or_ge x t.length with h | h
  · exact List.getD_append _ _ _ _ h
  · rw [List.getD_eq_default _ _ h]
    rw [List.getD_append_right _ _ _ _ h]
    rcases lt_or_ge (x - t.length) (n - t.length) with h2 | h2
    · rw [List.getD_eq_getElem _ _ (by simpa using h2)]
      simp
    · exact List.getD_eq_default _ _ (by simpa using h2)

/-- Writing another slot does not change the slot under observation. -/
theorem getD_set_ne (l : List Xref) (i x : ℕ) (e d : Xref) (h : i ≠ x) :
    (l.set i e).getD x d = l.getD x d := by
  simp [List.getD_eq_getElem?_getD, List.getElem?_set_ne h]

/-- One xref-table entry never changes a slot whose offset is non-zero. -/
theorem xrefTableRecord_preserves (x0 : ℕ) (off gen x : ℤ) (alloc : String)
    (table t' : List Xref) (hoff : (table.getD x0 Xref.empty).offset ≠ 0)
    (h : xrefTableRecord off gen x alloc table = .ok t') :
    t'.getD x0 Xref.empty = table.getD x0 Xref.empty := by
  unfold xrefTableRecord at h
  split at h
  · cases h
  · split at h
    · split at h
      · cases h
      · dsimp only [] at h
        split at h
        · next hcond =>
          cases h
          by_cases hxx : x.toNat = x0
          · rw [hxx, getD_padTo] at hcond
            exact absurd hcond hoff
          · rw [getD_set_ne _ _ _ _ _ hxx, getD_padTo]
        · cases h
          rw [getD_padTo]
    · cases h
      split
      · rfl
      · rw [getD_padTo]

/-- The inner entry loop of the xref-table reader never changes a slot whose
offset is non-zero. -/
theorem readXrefRows_preserves (x0 : ℕ) (count : ℕ) :
    ∀ (x : ℤ) toks (table t' : List Xref) rest,
      (table.getD x0 Xref.empty).offset ≠ 0 →
      readXrefRows count x toks table = .ok (t', rest) →
      t'.getD x0 Xref.empty = table.getD x0 Xref.empty := by
  induction count with
  | zero =>
    intro x toks table t' rest hoff h
    simp only [readXrefRows, Except.ok.injEq, Prod.mk.injEq] at h
    rw [← h.1]
  | succ n ih =>
    intro x toks table t' rest hoff h
    rcases toks with _ | ⟨t1, cs1⟩
    · exact Except.noConfusion h
    rcases cs1 with _ | ⟨t2, cs2⟩
    · rcases t1 with off | s1 | _ <;> exact Except.noConfusion h
    rcases cs2 with _ | ⟨t3, cs3⟩
    · rcases t1 with off | s1 | _ <;> rcases t2 with gen | s2 | _ <;>
        exact Except.noConfusion h
    rcases t1 with off | s1 | _ <;> rcases t2 with gen | s2 | _ <;>
        rcases t3 with n3 | alloc | _ <;>
      try exact Except.noConfusion h
    have h2 : (match xrefTableRecord off gen x alloc table with
        | .error e => Except.error e
        | .ok t => readXrefRows n (x + 1) cs3 t) = Except.ok (t', rest) := h
    cases hrec : xrefTableRecord off gen x alloc table with
    | error e =>
      rw [hrec] at h2
      exact Except.noConfusion h2
    | ok t1 =>
      rw [hrec] at h2
      have h3 : readXrefRows n (x + 1) cs3 t1 = Except.ok (t', rest) := h2
      have hp := xrefTableRecord_preserves x0 _ _ _ _ _ _ hoff hrec
      rw [ih _ _ _ _ _ (by rw [hp]; exact hoff) h3, hp]

/-- Unfolding: the section loop on an empty token stream. -/
theorem readXrefTableGo_nil (fuel : ℕ) (table : List Xref) :
    readXrefTableGo fuel [] table = .error .goPanic := by
  cases fuel <;> rfl

/-- Unfolding: the section loop on a single remaining token. -/
theorem readXrefTableGo_single (fuel : ℕ) (t1 : Tok) (table : List Xref) :
    readXrefTableGo fuel [t1] table =
      if t1 = Tok.kw "trailer" then .ok (table, []) else .error .goPanic := by
  cases fuel <;> rfl

/-- Unfolding: the section loop out of fuel. -/
theorem readXrefTableGo_zero_cons2 (t1 t2 : Tok) (rest : List Tok)
    (table : List Xref) :
    readXrefTableGo 0 (t1 :: t2 :: rest) table = .error .goPanic := rfl

/-- Unfolding: one pass of the section loop. -/
theorem readXrefTableGo_cons2 (fuel : ℕ) (t1 t2 : Tok) (rest : List Tok)
    (table : List Xref) :
    readXrefTableGo (fuel + 1) (t1 :: t2 :: rest) table =
      if t1 = Tok.kw "trailer" then .ok (table, t2 :: rest)
      else
        match t1, t2 with
        | Tok.int start, Tok.int count =>
          (match readXrefRows count.toNat start rest table with
           | .error e => .error e
           | .ok (t, rest') => readXrefTableGo fuel rest' t)
        | _, _ => .error XErr.malformedTable := rfl

/-- The outer section loop of the xref-table reader never changes a slot
whose offset is non-zero. -/
theorem readXrefTableGo_preserves (x0 : ℕ) (fuel : ℕ) :
    ∀ toks (table t' : List Xref) rest,
      (table.getD x0 Xref.empty).offset ≠ 0 →
      readXrefTableGo fuel toks table = .ok (t', rest) →
      t'.getD x0 Xref.empty = table.getD x0 Xref.empty := by
  induction fuel with
  | zero =>
    intro toks table t' rest hoff h
    rcases toks with _ | ⟨t1, cs⟩
    · rw [readXrefTableGo_nil] at h
      exact Except.noConfusion h
    rcases cs with _ | ⟨t2, cs2⟩
    · rw [readXrefTableGo_single] at h
      split at h
      · cases h; rfl
      · exact Except.noConfusion h
    · rw [readXrefTableGo_zero_cons2] at h
      exact Except.noConfusion h
  | succ n ih =>
    intro toks table t' rest hoff h
    rcases toks with _ | ⟨t1, cs⟩
    · rw [readXrefTableGo_nil] at h
      exact Except.noConfusion h
    rcases cs with _ | ⟨t2, cs2⟩
    · rw [readXrefTableGo_single] at h
      split at h
      · cases h; rfl
      · exact Except.noConfusion h
    · rw [readXrefTableGo_cons2] at h
      split at h
      · cases h; rfl
      · rcases t1 with s1 | s1 | _ <;> rcases t2 with s2 | s2 | _ <;>
          try exact Except.noConfusion h
        have h3 : (match readXrefRows s2.toNat s1 cs2 table with
            | Except.error e => Except.error e
            | Except.ok (t, rest') => readXrefTableGo n rest' t)
            = Except.ok (t', rest) := h
        cases hrows : readXrefRows s2.toNat s1 cs2 table with
        | error e =>
          rw [hrows] at h3
          exact Except.noConfusion h3
        | ok pr =>
          rcases pr with ⟨t, rest'⟩
          rw [hrows] at h3
          have h4 : readXrefTableGo n rest' t = Except.ok (t', rest) := h3
          rw [ih _ _ _ _ (by rw [readXrefRows_preserves x0 _ _ _ _ _ _ hoff hrows]; exact hoff) h4,
            readXrefRows_preserves x0 _ _ _ _ _ _ hoff hrows]

/-- `readXrefTableData` (C1, table path) never changes a slot whose offset
is non-zero. -/
theorem readXrefTableData_preserves (x0 : ℕ) (toks : List Tok)
    (table t' : List Xref) (rest : List Tok)
    (hoff : (table.getD x0 Xref.empty).offset ≠ 0)
    (h : readXrefTableData toks table = .ok (t', rest)) :
    t'.getD x0 Xref.empty = table.getD x0 Xref.empty :=
  readXrefTableGo_preserves x0 toks.length toks table t' rest hoff h

/-- One xref-stream record never changes a slot whose `ptr` is non-zero. -/
theorem xrefStreamRecord_preserves (x0 : ℕ) (w0 w1 w2 : ℤ) (buf : List ℕ)
    (x : ℤ) (table t' : List Xref)
    (hptr : (table.getD x0 Xref.empty).ptr ≠ ObjPtr.zero)
    (h : xrefStreamRecord w0 w1 w2 buf x table = .ok t') :
    t'.getD x0 Xref.empty = table.getD x0 Xref.empty := by
  unfold xrefStreamRecord at h
  split at h
  · cases h
  · split at h
    · cases h
    · by_cases hxx : x.toNat = x0
      · have hg : ((padTo table (x.toNat + 1)).getD x.toNat Xref.empty).ptr ≠ ObjPtr.zero := by
          rw [hxx, getD_padTo]
          exact hptr
        rw [if_pos hg] at h
        cases h
        rw [getD_padTo]
      · split at h
        · cases h
          rw [getD_padTo]
        · split at h
          · cases h
            rw [getD_set_ne _ _ _ _ _ hxx, getD_padTo]
          · split at h
            · cases h
              rw [getD_set_ne _ _ _ _ _ hxx, getD_padTo]
            · split at h
              · cases h
                rw [getD_set_ne _ _ _ _ _ hxx, getD_padTo]
              · cases h
                rw [getD_padTo]

/-- The xref-stream record loop never changes a slot whose `ptr` is
non-zero. -/
theorem xrefStreamRows_preserves (x0 : ℕ) (w0 w1 w2 : ℤ) (wtotal : ℕ)
    (count : ℕ) :
    ∀ (x : ℤ) data (table t' : List Xref) data',
      (table.getD x0 Xref.empty).ptr ≠ ObjPtr.zero →
      xrefStreamRows w0 w1 w2 wtotal count x data table = .ok (t', data') →
      t'.getD x0 Xref.empty = table.getD x0 Xref.empty := by
  induction count with
  | zero =>
    intro x data table t' data' hptr h
    simp only [xrefStreamRows, Except.ok.injEq, Prod.mk.injEq] at h
    rw [← h.1]
  | succ n ih =>
    intro x data table t' data' hptr h
    simp only [xrefStreamRows] at h
    split at h
    · cases h
    · cases hrec : xrefStreamRecord w0 w1 w2 (data.take wtotal) x table with
      | error e =>
        rw [hrec] at h
        exact Except.noConfusion h
      | ok t1 =>
        rw [hrec] at h
        have h3 : xrefStreamRows w0 w1 w2 wtotal n (x + 1) (data.drop wtotal) t1
            = Except.ok (t', data') := h
        have hp := xrefStreamRecord_preserves x0 _ _ _ _ _ _ _ hptr hrec
        rw [ih _ _ _ _ _ (by rw [hp]; exact hptr) h3, hp]

/-- The `Index`-pair loop never changes a slot whose `ptr` is non-zero. -/
theorem xrefStreamPairs_preserves (x0 : ℕ) (w0 w1 w2 : ℤ) (wtotal : ℕ)
    (index : List PdfObj) (data : List ℕ) (table : List Xref) :
    ∀ t', (table.getD x0 Xref.empty).ptr ≠ ObjPtr.zero →
      xrefStreamPairs w0 w1 w2 wtotal index data table = .ok t' →
      t'.getD x0 Xref.empty = table.getD x0 Xref.empty := by
  induction index, data, table using xrefStreamPairs.induct w0 w1 w2 wtotal with
  | case1 data table =>
    intro t' hptr h
    simp only [xrefStreamPairs, Except.ok.injEq] at h
    rw [← h]
  | case2 i0 data table =>
    intro t' hptr h
    simp only [xrefStreamPairs] at h
    cases h
  | case3 restIndex data table start count e hrows =>
    intro t' hptr h
    have h3 : (match xrefStreamRows w0 w1 w2 wtotal count.toNat start data table with
        | Except.error e => Except.error e
        | Except.ok (t, data') => xrefStreamPairs w0 w1 w2 wtotal restIndex data' t)
        = Except.ok t' := h
    rw [hrows] at h3
    exact Except.noConfusion h3
  | case4 restIndex data table start count t data' hrows ih =>
    intro t' hptr h
    have h3 : (match xrefStreamRows w0 w1 w2 wtotal count.toNat start data table with
        | Except.error e => Except.error e
        | Except.ok (t, data') => xrefStreamPairs w0 w1 w2 wtotal restIndex data' t)
        = Except.ok t' := h
    rw [hrows] at h3
    have h4 : xrefStreamPairs w0 w1 w2 wtotal restIndex data' t = Except.ok t' := h3
    have hp := xrefStreamRows_preserves x0 w0 w1 w2 wtotal count.toNat start data table t data' hptr hrows
    rw [ih _ (by rw [hp]; exact hptr) h4, hp]
  | case5 i0 i1 restIndex data table hne =>
    intro t' hptr h
    rw [xrefStreamPairs.eq_def] at h
    split at h
    all_goals first
      | exact Except.noConfusion h
      | simp_all

/-- `readXrefStreamData` (C1, stream path) never changes a slot whose `ptr`
is non-zero. -/
theorem readXrefStreamData_preserves (x0 : ℕ) (hdr : List (String × PdfObj))
    (data : List ℕ) (table t' : List Xref) (size : ℤ)
    (hptr : (table.getD x0 Xref.empty).ptr ≠ ObjPtr.zero)
    (h : readXrefStreamData hdr data table size = .ok t') :
    t'.getD x0 Xref.empty = table.getD x0 Xref.empty := by
  unfold readXrefStreamData at h
  dsimp only [] at h
  split at h
  · cases h
  · split at h
    all_goals try cases h
    split at h
    all_goals try cases h
    split at h
    · cases h
    · split at h
      · cases h
      · exact xrefStreamPairs_preserves x0 _ _ _ _ _ _ _ t' hptr h

/-- C1 counterexample: in the xref-table path the overwrite guard is
`table[x].offset == 0`, not entry presence.  A newer source records the
entry `1 0 n` at offset 0 — a present entry (non-zero `ptr`) — and an older
source's `1 99 n` then overwrites it, so an entry already present IS
overwritten by an older xref source. -/
theorem readXref_prev_overwrite_counterexample :
    readXrefTableData
        [Tok.int 1, Tok.int 1, Tok.int 0, Tok.int 0, Tok.kw "n", Tok.kw "trailer"] []
      = .ok ([Xref.empty, ⟨⟨1, 0⟩, false, ObjPtr.zero, 0⟩], [])
    ∧ (⟨⟨1, 0⟩, false, ObjPtr.zero, 0⟩ : Xref) ≠ Xref.empty
    ∧ readXrefTableData
        [Tok.int 1, Tok.int 1, Tok.int 99, Tok.int 0, Tok.kw "n", Tok.kw "trailer"]
        [Xref.empty, ⟨⟨1, 0⟩, false, ObjPtr.zero, 0⟩]
      = .ok ([Xref.empty, ⟨⟨1, 0⟩, false, ObjPtr.zero, 99⟩], [])
    ∧ (⟨⟨1, 0⟩, false, ObjPtr.zero, 99⟩ : Xref) ≠ ⟨⟨1, 0⟩, false, ObjPtr.zero, 0⟩ :=
  ⟨by rfl, by decide, by rfl, by decide⟩

/-- C1 as amended: when building xref from chained `Prev` sources, an entry
is protected from overwrite by older sources exactly by each path's guard
field — a non-zero `offset` in the table path, a non-zero `ptr` in the
stream path.  Entries with those guards set are never changed by
later-processed (older) sources. -/
theorem readXref_prev_no_overwrite_amended :
    (∀ toks (table t' : List Xref) rest (x0 : ℕ),
      (table.getD x0 Xref.empty).offset ≠ 0 →
      readXrefTableData toks table = .ok (t', rest) →
      t'.getD x0 Xref.empty = table.getD x0 Xref.empty)
    ∧ (∀ hdr data (table t' : List Xref) size (x0 : ℕ),
      (table.getD x0 Xref.empty).ptr ≠ ObjPtr.zero →
      readXrefStreamData hdr data table size = .ok t' →
      t'.getD x0 Xref.empty = table.getD x0 Xref.empty) :=
  ⟨fun toks table t' rest x0 hoff h =>
      readXrefTableData_preserves x0 toks table t' rest hoff h,
   fun hdr data table t' size x0 hptr h =>
      readXrefStreamData_preserves x0 hdr data table t' size hptr h⟩

/-- C1 amended witness: an older table source writes object 2 while the
protected entry for object 1 (offset 5) survives; an older xref stream
writes object 1 while the free entry for object 0 (ptr `(0, 65535)`)
survives. -/
theorem readXref_prev_no_overwrite_amended_witness :
    ([Xref.empty, ⟨⟨1, 0⟩, false, ObjPtr.zero, 5⟩,
        ⟨⟨2, 0⟩, false, ObjPtr.zero, 77⟩].getD 1 Xref.empty
      = [Xref.empty, ⟨⟨1, 0⟩, false, ObjPtr.zero, 5⟩].getD 1 Xref.empty)
    ∧ ([⟨⟨0, 65535⟩, false, ObjPtr.zero, 0⟩,
          ⟨⟨1, 0⟩, false, ObjPtr.zero, 9⟩].getD 0 Xref.empty
      = [⟨⟨0, 65535⟩, false, ObjPtr.zero, 0⟩, Xref.empty].getD 0 Xref.empty) :=
  ⟨readXref_prev_no_overwrite_amended.1
      [Tok.int 2, Tok.int 1, Tok.int 77, Tok.int 0, Tok.kw "n", Tok.kw "trailer"]
      [Xref.empty, ⟨⟨1, 0⟩, false, ObjPtr.zero, 5⟩] _ [] 1 (by decide) (by rfl),
   readXref_prev_no_overwrite_amended.2
      [("W", PdfObj.array [PdfObj.int 1, PdfObj.int 1, PdfObj.int 1]),
       ("Index", PdfObj.array [PdfObj.int 1, PdfObj.int 1])]
      [1, 9, 0] [⟨⟨0, 65535⟩, false, ObjPtr.zero, 0⟩, Xref.empty] _ 2 0
      (by decide) (by rfl)⟩

/-- The byte-wise running sums of a list of payload rows: row `i` of the
result is `acc + p_0 + … + p_i` modulo 256. -/
def cumRows : List ℕ → List (List ℕ) → List (List ℕ)
  | _, [] => []
  | acc, p :: ps => addRow acc p :: cumRows (addRow acc p) ps

/-- Unfolding: the PNG-Up reader at end of input. -/
theorem pngUpReadAll_nil (cols : ℕ) (hist : List ℕ) :
    pngUpReadAll cols hist [] = ([], none) := by
  rw [pngUpReadAll]
  simp

/-- Unfolding: one well-formed row (leading filter byte 2). -/
theorem pngUpReadAll_cons (cols : ℕ) (hist row t : List ℕ)
    (hrow : row.length = 1 + cols) (hhead : row.headD 0 = 2) :
    pngUpReadAll cols hist (row ++ t)
      = ((addRow hist row).drop 1 ++ (pngUpReadAll cols (addRow hist row) t).1,
         (pngUpReadAll cols (addRow hist row) t).2) := by
  have htake : (row ++ t).take (1 + cols) = row := by
    rw [← hrow]
    exact List.take_left row t
  have hdrop : (row ++ t).drop (1 + cols) = t := by
    rw [← hrow]
    exact List.drop_left row t
  rw [pngUpReadAll]
  rw [dif_neg (by simp [List.length_append, hrow]), dif_neg (by simp [List.length_append, hrow]),
    htake, hdrop, if_neg (by rw [hhead]; simp)]

/-- Unfolding: one row with a bad leading filter byte. -/
theorem pngUpReadAll_cons_bad (cols : ℕ) (hist row t : List ℕ)
    (hrow : row.length = 1 + cols) (hhead : row.headD 0 ≠ 2) :
    pngUpReadAll cols hist (row ++ t) = ([], some StreamErr.malformedPngUp) := by
  have htake : (row ++ t).take (1 + cols) = row := by
    rw [← hrow]
    exact List.take_left row t
  rw [pngUpReadAll]
  rw [dif_neg (by simp [List.length_append, hrow]), dif_neg (by simp [List.length_append, hrow]),
    htake, if_pos hhead]

/-- With every leading byte 2, the PNG-Up reader emits the running sums of
the payloads on top of the history and ends cleanly. -/
theorem pngUp_rows_good (cols : ℕ) :
    ∀ (rows : List (List ℕ)) (hist : List ℕ),
      (∀ row ∈ rows, row.length = 1 + cols ∧ row.headD 0 = 2) →
      pngUpReadAll cols hist rows.flatten
        = ((cumRows (hist.drop 1) (rows.map (fun r => List.drop 1 r))).flatten, none) := by
  intro rows
  induction rows with
  | nil =>
    intro hist _
    simp [cumRows, pngUpReadAll_nil]
  | cons row rs ih =>
    intro hist hall
    obtain ⟨hrow, hhead⟩ := hall row (by simp)
    rw [List.flatten_cons, pngUpReadAll_cons cols hist row rs.flatten hrow hhead,
      ih (addRow hist row) (fun r hr => hall r (by simp [hr]))]
    simp only [List.map_cons, cumRows, List.flatten_cons]
    rw [show (addRow hist row).drop 1 = addRow (hist.drop 1) (row.drop 1) from by
      simp [addRow, List.drop_zipWith]]

/-- A row with a bad leading byte makes the PNG-Up reader end with the
malformed-stream error. -/
theorem pngUp_rows_bad (cols : ℕ) :
    ∀ (rows : List (List ℕ)) (hist : List ℕ),
      (∀ row ∈ rows, row.length = 1 + cols) →
      (∃ row ∈ rows, row.headD 0 ≠ 2) →
      (pngUpReadAll cols hist rows.flatten).2 = some StreamErr.malformedPngUp := by
  intro rows
  induction rows with
  | nil =>
    intro hist _ hex
    simp at hex
  | cons row rs ih =>
    intro hist hlen hex
    by_cases hh : row.headD 0 = 2
    · have hex' : ∃ r ∈ rs, r.headD 0 ≠ 2 := by
        rcases hex with ⟨r, hr, hne⟩
        rcases List.mem_cons.mp hr with hreq | hr'
        · exact absurd (hreq ▸ hh) hne
        · exact ⟨r, hr', hne⟩
      rw [List.flatten_cons, pngUpReadAll_cons cols hist row rs.flatten (hlen row (by simp)) hh]
      exact ih (addRow hist row) (fun r hr => hlen r (by simp [hr])) hex'
    · rw [List.flatten_cons,
        pngUpReadAll_cons_bad cols hist row rs.flatten (hlen row (by simp)) hh]

/-- C7: for the PNG-Up predictor over rows of `1 + Columns` bytes with the
history initialized to zero, if every leading filter byte is 2 the i-th
emitted row is the byte-wise sum modulo 256 of payloads `p_0 … p_i`, and
a row with any other leading byte ends the read with the malformed-stream
error. -/
theorem pngUp_cumsum_and_malformed (cols : ℕ) (rows : List (List ℕ))
    (hlen : ∀ row ∈ rows, row.length = 1 + cols) :
    ((∀ row ∈ rows, row.headD 0 = 2) →
      pngUpReadAll cols (List.replicate (1 + cols) 0) rows.flatten
        = ((cumRows (List.replicate cols 0) (rows.map (fun r => List.drop 1 r))).flatten,
           none))
    ∧ ((∃ row ∈ rows, row.headD 0 ≠ 2) →
      (pngUpReadAll cols (List.replicate (1 + cols) 0) rows.flatten).2
        = some StreamErr.malformedPngUp) := by
  constructor
  · intro hgood
    rw [pngUp_rows_good cols rows (List.replicate (1 + cols) 0)
      (fun r hr => ⟨hlen r hr, hgood r hr⟩)]
    rw [show (List.replicate (1 + cols) (0 : ℕ)).drop 1 = List.replicate cols 0 from by
      rw [Nat.add_comm 1 cols, List.replicate_succ]
      simp]
  · exact pngUp_rows_bad cols rows (List.replicate (1 + cols) 0) hlen

/-- C7 witness: two rows with `Columns = 2`, and a stream whose second row
has a bad filter byte. -/
theorem pngUp_cumsum_and_malformed_witness :
    pngUpReadAll 2 (List.replicate 3 0) ([2, 1, 2] ++ [2, 3, 255] ++ [])
      = ((cumRows (List.replicate 2 0) [[1, 2], [3, 255]]).flatten, none)
    ∧ (pngUpReadAll 2 (List.replicate 3 0) ([2, 1, 2] ++ [7, 3, 4] ++ [])).2
      = some StreamErr.malformedPngUp := by
  constructor
  · have := (pngUp_cumsum_and_malformed 2 [[2, 1, 2], [2, 3, 255]] (by decide)).1 (by decide)
    simpa using this
  · have := (pngUp_cumsum_and_malformed 2 [[2, 1, 2], [7, 3, 4]] (by decide)).2
      (by refine ⟨[7, 3, 4], by simp, by decide⟩)
    simpa using this

/-- A byte is a hex digit iff `unhex` does not return the `-1` sentinel. -/
def isHexDigitB (b : ℕ) : Bool :=
  decide (0 ≤ unhex b)

/-- Pair up hex digits into bytes the way `readHexString` does (a trailing
lone digit is dropped — the code never produces one, it errors instead). -/
def pairNibbles : List ℕ → List ℕ
  | a :: b :: t => (orInt64 (unhex a * 16) (unhex b)).toNat % 256 :: pairNibbles t
  | _ => []

/-- `unhex` never reaches 16. -/
theorem unhex_lt_16 (c : ℕ) : unhex c < 16 := by
  unfold unhex
  split_ifs <;> omega

set_option maxRecDepth 4000 in
/-- OR-ing two in-range nibble values is non-negative. -/
theorem orInt64_nibbles_nonneg :
    ∀ a < 16, ∀ b < 16, 0 ≤ orInt64 ((a : ℕ) * 16) (b : ℕ) := by
  decide

set_option maxRecDepth 4000 in
/-- OR-ing any byte-sized first nibble with the `-1` sentinel is negative. -/
theorem orInt64_sentinel_neg : ∀ a < 256, orInt64 (a : ℕ) (-1) < 0 := by
  decide

/-- The hex-string reader only looks at its input through the leading
whitespace strip. -/
theorem readHexGo_congr (fuel : ℕ) (i1 i2 acc : List ℕ)
    (h : i1.dropWhile isSpaceB = i2.dropWhile isSpaceB) :
    readHexStringGo (fuel + 1) i1 acc = readHexStringGo (fuel + 1) i2 acc := by
  rw [readHexStringGo, readHexStringGo, h]

/-- Bytes removed by a leading-whitespace strip never survive the
non-whitespace filter. -/
theorem filter_not_dropWhile (p : ℕ → Bool) :
    ∀ l : List ℕ, l.filter (fun c => !p c) = (l.dropWhile p).filter (fun c => !p c) := by
  intro l
  induction l with
  | nil => rfl
  | cons a t ih =>
    rw [List.dropWhile_cons]
    by_cases hp : p a = true
    · rw [if_pos hp, List.filter_cons]
      simp [hp, ih]
    · rw [if_neg hp]

/-- The head delivered by `dropWhile` never satisfies the predicate. -/
theorem dropWhile_head_false (p : ℕ → Bool) :
    ∀ (l : List ℕ) c t, l.dropWhile p = c :: t → p c = false := by
  intro l
  induction l with
  | nil => intro c t h; simp [List.dropWhile] at h
  | cons a l ih =>
    intro c t h
    rw [List.dropWhile_cons] at h
    by_cases hp : p a = true
    · rw [if_pos hp] at h
      exact ih c t h
    · rw [if_neg hp] at h
      injection h with h1 _
      subst h1
      simpa using hp

/-- One full iteration of `readHexStringGo` when the two nibble positions
are known. -/
theorem readHexGo_step (f : ℕ) (input acc : List ℕ) (c : ℕ) (r1 : List ℕ) (c2 : ℕ)
    (r2 : List ℕ)
    (h1 : input.dropWhile isSpaceB = c :: r1) (hc : ¬ c = 62)
    (h2 : r1.dropWhile isSpaceB = c2 :: r2) :
    readHexStringGo (f + 1) input acc
      = if orInt64 (unhex c * 16) (unhex c2) < 0 then Except.error LexErr.malformedHex
        else readHexStringGo f r2 (acc ++ [(orInt64 (unhex c * 16) (unhex c2)).toNat % 256]) := by
  simp only [readHexStringGo, h1, if_neg hc, h2]

/-- The core behaviour of `readHexString` on a body of spaces and hex digits
followed by the closing `>`, by strong induction on the body: spaces are
skipped, an even number of hex digits is paired into bytes, and an odd count
fails (the `>` terminator is consumed as a second nibble and `unhex` yields
the sentinel). -/
theorem readHexGo_spec :
    ∀ (n : ℕ) (body : List ℕ), body.length = n →
    (∀ c ∈ body, isSpaceB c = true ∨ isHexDigitB c = true) →
    ∀ fuel acc rest, body.length < fuel →
      ((body.filter (fun c => !isSpaceB c)).length % 2 = 0 →
        readHexStringGo fuel (body ++ 62 :: rest) acc
          = .ok (acc ++ pairNibbles (body.filter (fun c => !isSpaceB c)), rest))
      ∧ ((body.filter (fun c => !isSpaceB c)).length % 2 = 1 →
        readHexStringGo fuel (body ++ 62 :: rest) acc = .error .malformedHex) := by
  intro n
  induction n using Nat.strong_induction_on with
  | _ n IH =>
    intro body hbn hbody fuel acc rest hfuel
    rcases fuel with _ | f
    · omega
    rcases body with _ | ⟨b, body'⟩
    · constructor
      · intro _
        rw [readHexStringGo]
        simp [List.dropWhile, isSpaceB, pairNibbles]
      · intro hodd
        simp at hodd
    have hbn' : body'.length + 1 = n := by simpa using hbn
    have hfuel' : body'.length + 1 < f + 1 := by simpa using hfuel
    by_cases hsb : isSpaceB b = true
    · -- leading space: skipped by the reader and absent from the filter
      have hcong : readHexStringGo (f + 1) ((b :: body') ++ 62 :: rest) acc
          = readHexStringGo (f + 1) (body' ++ 62 :: rest) acc := by
        apply readHexGo_congr
        rw [List.cons_append, List.dropWhile_cons, if_pos hsb]
      have hfilter : (b :: body').filter (fun c => !isSpaceB c)
          = body'.filter (fun c => !isSpaceB c) := by
        simp [List.filter_cons, hsb]
      rw [hcong, hfilter]
      exact IH body'.length (by omega) body' rfl
        (fun c hc => hbody c (by simp [hc])) (f + 1) acc rest (by omega)
    · -- leading hex digit
      have hhex : isHexDigitB b = true := by
        rcases hbody b (by simp) with h | h
        · exact absurd h hsb
        · exact h
      have hb0 : 0 ≤ unhex b := of_decide_eq_true hhex
      have hbne : ¬ b = 62 := by
        intro he
        rw [he] at hb0
        norm_num [unhex] at hb0
      have h1 : ((b :: body') ++ 62 :: rest).dropWhile isSpaceB
          = b :: (body' ++ 62 :: rest) := by
        rw [List.cons_append, List.dropWhile_cons, if_neg hsb]
      have hfilter : (b :: body').filter (fun c => !isSpaceB c)
          = b :: body'.filter (fun c => !isSpaceB c) := by
        simp [List.filter_cons, hsb]
      rcases hdw : body'.dropWhile isSpaceB with _ | ⟨c2, t2⟩
      · -- the rest of the body is all spaces: the second nibble is the `>`
        have hfe : body'.filter (fun c => !isSpaceB c) = [] := by
          rw [filter_not_dropWhile isSpaceB body', hdw]
          rfl
        have h2 : (body' ++ 62 :: rest).dropWhile isSpaceB = 62 :: rest := by
          rw [List.dropWhile_append, hdw]
          simp [List.dropWhile_cons, isSpaceB]
        have hcast : unhex b * 16 = (((unhex b).toNat * 16 : ℕ) : ℤ) := by
          push_cast
          rw [Int.toNat_of_nonneg hb0]
        have hlt : (unhex b).toNat * 16 < 256 := by
          have := unhex_lt_16 b
          omega
        have hx : orInt64 (unhex b * 16) (unhex 62) < 0 := by
          rw [show unhex 62 = (-1 : ℤ) from by decide, hcast]
          exact orInt64_sentinel_neg _ hlt
        constructor
        · intro heven
          rw [hfilter, hfe] at heven
          simp at heven
        · intro _
          rw [readHexGo_step f ((b :: body') ++ 62 :: rest) acc b (body' ++ 62 :: rest)
            62 rest h1 hbne h2, if_pos hx]
      · -- a real second nibble follows
        have hsubl : List.Sublist (body'.dropWhile isSpaceB) body' :=
          List.dropWhile_sublist _
        have hc2ns : isSpaceB c2 = false := dropWhile_head_false isSpaceB body' c2 t2 hdw
        have hc2mem : c2 ∈ body' :=
          hsubl.subset (by rw [hdw]; exact List.mem_cons_self c2 t2)
        have hc2hex : isHexDigitB c2 = true := by
          rcases hbody c2 (List.mem_cons_of_mem b hc2mem) with h | h
          · rw [h] at hc2ns
            simp at hc2ns
          · exact h
        have hc20 : 0 ≤ unhex c2 := of_decide_eq_true hc2hex
        have h2 : (body' ++ 62 :: rest).dropWhile isSpaceB = c2 :: (t2 ++ 62 :: rest) := by
          rw [List.dropWhile_append, hdw]
          simp
        have hx0 : 0 ≤ orInt64 (unhex b * 16) (unhex c2) := by
          rw [show unhex b = (((unhex b).toNat : ℕ) : ℤ) from (Int.toNat_of_nonneg hb0).symm,
            show unhex c2 = (((unhex c2).toNat : ℕ) : ℤ) from (Int.toNat_of_nonneg hc20).symm]
          exact orInt64_nibbles_nonneg (unhex b).toNat
            (by have := unhex_lt_16 b; omega) (unhex c2).toNat
            (by have := unhex_lt_16 c2; omega)
        have hlen2 : t2.length + 1 ≤ body'.length := by
          have hl := hsubl.length_le
          rw [hdw] at hl
          simpa using hl
        have hfb : body'.filter (fun c => !isSpaceB c)
            = c2 :: t2.filter (fun c => !isSpaceB c) := by
          rw [filter_not_dropWhile isSpaceB body', hdw, List.filter_cons]
          simp [hc2ns]
        have hIH := IH t2.length (by omega) t2 rfl
          (fun c hc => hbody c (List.mem_cons_of_mem b
            (hsubl.subset (by rw [hdw]; exact List.mem_cons_of_mem c2 hc))))
          f (acc ++ [(orInt64 (unhex b * 16) (unhex c2)).toNat % 256]) rest (by omega)
        rw [readHexGo_step f ((b :: body') ++ 62 :: rest) acc b (body' ++ 62 :: rest)
          c2 (t2 ++ 62 :: rest) h1 hbne h2, if_neg (not_lt.mpr hx0)]
        constructor
        · intro heven
          rw [hfilter, hfb] at heven ⊢
          have hev2 : (t2.filter (fun c => !isSpaceB c)).length % 2 = 0 := by
            rw [List.length_cons, List.length_cons] at heven
            omega
          rw [hIH.1 hev2]
          simp [pairNibbles]
        · intro hodd
          rw [hfilter, hfb] at hodd
          have hod2 : (t2.filter (fun c => !isSpaceB c)).length % 2 = 1 := by
            rw [List.length_cons, List.length_cons] at hodd
            omega
          exact hIH.2 hod2

/-- C8 (amended): on a hex-string body of spaces and hex digits followed by
the closing `>`, `readHexString` skips the spaces and pairs the digits into
bytes when their count is even, but when their count is odd it reports the
malformed-hex error — the lone final nibble is NOT padded with a `0` nibble
as claimed: the loop unconditionally reads a second nibble, consumes the `>`
as that nibble, and `unhex` of `>` is the negative sentinel. -/
theorem readHexString_amended (body rest : List ℕ)
    (hbody : ∀ c ∈ body, isSpaceB c = true ∨ isHexDigitB c = true) :
    ((body.filter (fun c => !isSpaceB c)).length % 2 = 0 →
      readHexString (body ++ 62 :: rest)
        = .ok (pairNibbles (body.filter (fun c => !isSpaceB c)), rest))
    ∧ ((body.filter (fun c => !isSpaceB c)).length % 2 = 1 →
      readHexString (body ++ 62 :: rest) = .error .malformedHex) := by
  have h := readHexGo_spec body.length body rfl hbody
    ((body ++ 62 :: rest).length + 1) [] rest (by rw [List.length_append]; omega)
  constructor
  · intro he
    simpa [readHexString] using h.1 he
  · intro ho
    simpa [readHexString] using h.2 ho

/-- C8 witness: the body `a b` (two hex digits split by a space) decodes to
the byte `0xAB` with the trailing bytes returned, and the body `a` (one
digit) is malformed. -/
theorem readHexString_amended_witness :
    readHexString ([97, 32, 98] ++ 62 :: [99])
      = .ok (pairNibbles (([97, 32, 98] : List ℕ).filter (fun c => !isSpaceB c)), [99])
    ∧ readHexString ([97] ++ 62 :: []) = .error .malformedHex :=
  ⟨(readHexString_amended [97, 32, 98] [99] (by decide)).1 (by decide),
   (readHexString_amended [97] [] (by decide)).2 (by decide)⟩

end PdfVerify
